import Mathlib

/-!
Shallow embedding of the `okx_data_saver` final-data-set calculator
(`src/cpp_final_data_set_saver`): the scaled-integer `Decimal` value type
(`src/utils/decimal.cpp`), the order-book state maps, and
`DataSetCalculator::calculateFinalDataSet` with its helpers
(`src/processors/data_set_calculator.cpp`).

Machine integers: the C++ code stores decimal values in `int64_t`.  All
`int64_t` arithmetic is modelled on `Int` with an explicit two's-complement
wrap `wrap64` (results in `[-2^63, 2^63)`), which is what the compiled code
does on overflow.  Fallible C++ code (`throw`) is modelled with
`Option`/`Except`.
-/

set_option maxRecDepth 100000

deriving instance DecidableEq for Except

namespace okx

/-- Two's-complement wrap of an integer into the `int64_t` range
`[-2^63, 2^63)`. -/
def wrap64 (x : Int) : Int := (x + 2 ^ 63) % 2 ^ 64 - 2 ^ 63

namespace utils

/-- `Decimal` from `include/utils/decimal.h`: a value stored as an `int64_t`
scaled by `10^precision_`, plus the `int32_t` precision (number of decimal
places).  Precision is modelled as `Nat`; every precision appearing in the
program is a literal in `0..36`. -/
structure Decimal where
  value : Int
  precision : Nat
deriving DecidableEq, Repr

/-- `Decimal::DEFAULT_PRECISION` (decimal.h line 22). -/
def DEFAULT_PRECISION : Nat := 16

/-- `Decimal::MAX_PRECISION` (decimal.h line 23). -/
def MAX_PRECISION : Nat := 36

/-- The static `scaleFactors` array inside `Decimal::getScaleFactor`
(decimal.cpp lines 272-292): exactly the 19 powers of ten `10^0 .. 10^18`. -/
def scaleFactorTable : List Int :=
  [1, 10, 100, 1000, 10000, 100000, 1000000, 10000000, 100000000,
   1000000000, 10000000000, 100000000000, 1000000000000, 10000000000000,
   100000000000000, 1000000000000000, 10000000000000000,
   100000000000000000, 1000000000000000000]

/-- Outcome of `Decimal::getScaleFactor` (decimal.cpp lines 271-299):
`invalidArg` is the thrown `std::invalid_argument` for precisions outside
`0..MAX_PRECISION`; `oob` is the out-of-bounds read `scaleFactors[precision]`
for precisions `19..36`, which pass the guard but exceed the 19-entry table
(undefined behavior in C++, modelled as a distinguished outcome). -/
inductive ScaleRes where
  | ok (v : Int)
  | invalidArg
  | oob
deriving DecidableEq, Repr

/-- Faithful model of `Decimal::getScaleFactor`: the guard admits
`0..MAX_PRECISION = 36` but the table only has entries `0..18`. -/
def getScaleFactorM (p : Nat) : ScaleRes :=
  if p > MAX_PRECISION then .invalidArg
  else
    match scaleFactorTable.get? p with
    | some v => .ok v
    | none => .oob

/-- Total scale factor used inside the arithmetic/comparison models; agrees
with the C++ table whenever the index is in bounds (`p ≤ 18`), which is the
case at every call site reached by the calculator (all its decimals have
precision 16 or 32, so precision differences are at most 16). -/
def scaleFactor (p : Nat) : Int := (scaleFactorTable.get? p).getD 0

namespace Decimal

/-- `Decimal::ZERO` (decimal.cpp line 11): `Decimal(int64_t 0)` at the
default precision. -/
def ZERO : Decimal := ⟨0, DEFAULT_PRECISION⟩

/-- `Decimal::isZero` (decimal.h line 114). -/
def isZero (d : Decimal) : Bool := d.value == 0

/-- `Decimal::isPositive` (decimal.h line 120). -/
def isPositive (d : Decimal) : Bool := 0 < d.value

/-- `Decimal::isNegative` (decimal.h line 126). -/
def isNegative (d : Decimal) : Bool := d.value < 0

/-- `Decimal::normalizePrecision` (decimal.cpp lines 263-269): scale both
stored values up to the larger precision (each `int64_t` product wraps). -/
def normalizePrecision (a b : Decimal) : Int × Int :=
  let maxP := max a.precision b.precision
  (wrap64 (a.value * scaleFactor (maxP - a.precision)),
   wrap64 (b.value * scaleFactor (maxP - b.precision)))

/-- `Decimal::operator+` (decimal.cpp lines 45-48). -/
def add (a b : Decimal) : Decimal :=
  let (v1, v2) := normalizePrecision a b
  ⟨wrap64 (v1 + v2), max a.precision b.precision⟩

/-- `Decimal::operator-` (decimal.cpp lines 50-53). -/
def sub (a b : Decimal) : Decimal :=
  let (v1, v2) := normalizePrecision a b
  ⟨wrap64 (v1 - v2), max a.precision b.precision⟩

/-- `Decimal::operator*` (decimal.cpp lines 55-67): result precision is the
sum of the operand precisions; scaled down (truncating `int64_t` division)
only when the sum exceeds `MAX_PRECISION`. -/
def mul (a b : Decimal) : Decimal :=
  let resultPrecision := a.precision + b.precision
  let resultValue := wrap64 (a.value * b.value)
  if resultPrecision > MAX_PRECISION then
    ⟨resultValue.tdiv (scaleFactor (resultPrecision - MAX_PRECISION)), MAX_PRECISION⟩
  else
    ⟨resultValue, resultPrecision⟩

/-- `Decimal::operator==` (decimal.cpp lines 84-87). -/
def deq (a b : Decimal) : Bool :=
  let (v1, v2) := normalizePrecision a b
  v1 == v2

/-- `Decimal::operator<` (decimal.cpp lines 93-96). -/
def dlt (a b : Decimal) : Bool :=
  let (v1, v2) := normalizePrecision a b
  v1 < v2

/-- `Decimal::operator>` (decimal.cpp lines 103-106). -/
def dgt (a b : Decimal) : Bool :=
  let (v1, v2) := normalizePrecision a b
  v2 < v1

end Decimal

/-- `c >= '0' && c <= '9'` as in the digit checks of `Decimal::parseString`. -/
def isDigitChar (c : Char) : Bool := '0' ≤ c && c ≤ '9'

/-- Split a character list at the first `'.'` (C++ `str.find('.')`,
decimal.cpp lines 307-316): returns the integer part and, when a point was
found, the remainder after it. -/
def splitDot : List Char → List Char × Option (List Char)
  | [] => ([], none)
  | c :: rest =>
    if c = '.' then ([], some rest)
    else
      let (ip, fp) := splitDot rest
      (c :: ip, fp)

/-- The integer-part digit loop of `Decimal::parseString` (decimal.cpp lines
327-332): `result = result * 10 + (c - '0')` with `int64_t` wrapping; a
non-digit character throws (`none`). -/
def parseDigitsW : Int → List Char → Option Int
  | acc, [] => some acc
  | acc, c :: rest =>
    if isDigitChar c then
      parseDigitsW (wrap64 (acc * 10 + ((c.toNat : Int) - ('0'.toNat : Int)))) rest
    else none

/-- The fractional-part digit loop of `Decimal::parseString` (decimal.cpp
lines 338-344): only the first `precision` characters are consumed and
validated; the loop stops silently once `i` reaches `precision`. -/
def parseFracW (precision : Nat) : Int → Nat → List Char → Option Int
  | acc, _, [] => some acc
  | acc, i, c :: rest =>
    if i < precision then
      if isDigitChar c then
        parseFracW precision (wrap64 (acc * 10 + ((c.toNat : Int) - ('0'.toNat : Int)))) (i + 1) rest
      else none
    else some acc

/-- `Decimal::parseString` (decimal.cpp lines 301-353).  Thrown
`std::invalid_argument` is modelled as `none`.  The `scale`/`fractionalScale`
computation `getScaleFactor(precision - fractionalPart.length())` receives a
negative `int32_t` when the fractional part is longer than `precision`
(size_t wrap-around narrowed to int32), making `getScaleFactor` throw; that
case is the `fp.length > precision` guard here. -/
def Decimal.parseString (s : String) (precision : Nat) : Option Int :=
  let cs := s.data
  if cs.isEmpty then none
  else
    let (ip0, fpOpt) := splitDot cs
    let fp := fpOpt.getD []
    let (negative, ipDigits) :=
      match ip0 with
      | '-' :: rest => (true, rest)
      | _ => (false, ip0)
    match parseDigitsW 0 ipDigits with
    | none => none
    | some intVal =>
      match parseFracW precision 0 0 fp with
      | none => none
      | some fracVal =>
        if fp.length > precision then none
        else
          let fractionalScale := scaleFactor (precision - fp.length)
          let fracScaled := wrap64 (fracVal * fractionalScale)
          let result := wrap64 (wrap64 (intVal * scaleFactor precision) + fracScaled)
          some (if negative then wrap64 (-result) else result)

/-- `Decimal::fromString` / the string constructor (decimal.cpp lines 26-33,
251-253): guard the precision, then parse. -/
def Decimal.fromString (s : String) (precision : Nat := DEFAULT_PRECISION) : Option Decimal :=
  if precision > MAX_PRECISION then none
  else (Decimal.parseString s precision).map (⟨·, precision⟩)

/-- `Decimal::fromInt` / the int64 constructor (decimal.cpp lines 35-43,
259-261): `value_ = val * scale` (wrapping). -/
def Decimal.fromInt (val : Int) (precision : Nat := DEFAULT_PRECISION) : Option Decimal :=
  if precision > MAX_PRECISION then none
  else some ⟨wrap64 (val * scaleFactor precision), precision⟩

/-- Decimal digits of `n`, most significant first; `fuel` bounds the
recursion depth and is always called with `fuel = 20`, enough for any
`int64_t` magnitude (at most 19 digits). -/
def natDigitsAux : Nat → Nat → List Char
  | 0, _ => []
  | fuel + 1, n =>
    if n = 0 then []
    else natDigitsAux fuel (n / 10) ++ [Char.ofNat (48 + n % 10)]

/-- Decimal string of a natural number, as `std::ostringstream` prints it. -/
def natToDecStr (n : Nat) : String :=
  if n = 0 then "0" else String.mk (natDigitsAux 20 n)

/-- Decimal string of an `int64_t`, as `std::ostringstream` prints it. -/
def intToDecStr (i : Int) : String :=
  if i < 0 then "-" ++ natToDecStr i.natAbs else natToDecStr i.natAbs

/-- `std::setfill('0') << std::setw(w)`: left-pad with zeros to width `w`. -/
def padLeftZeros (w : Nat) (s : String) : String :=
  String.mk (List.replicate (w - s.length) '0') ++ s

/-- Outcome of `Decimal::toString` (decimal.cpp lines 173-188): either the
formatted string, or the failure of the inner `getScaleFactor` call —
`invalidArg` for a thrown `std::invalid_argument`, `oob` for the
out-of-bounds table read at precisions `19..36`. -/
inductive StrRes where
  | ok (s : String)
  | invalidArg
  | oob
deriving DecidableEq, Repr

/-- `Decimal::toString` (decimal.cpp lines 173-188): integer part by
truncating division, fractional part `std::abs(value_ % scale)` zero-padded
to the precision width. -/
def Decimal.toStringM (d : Decimal) : StrRes :=
  if d.precision = 0 then .ok (intToDecStr d.value)
  else
    match getScaleFactorM d.precision with
    | .invalidArg => .invalidArg
    | .oob => .oob
    | .ok scale =>
      let integerPart := d.value.tdiv scale
      let fractionalPart := (d.value.tmod scale).natAbs
      .ok (intToDecStr integerPart ++ "." ++ padLeftZeros d.precision (natToDecStr fractionalPart))

end utils

/-- `SymbolId` (data_structures.h lines 16-20). -/
inductive SymbolId where
  | BTC_USDT
  | ETH_USDT
  | SOL_USDT
deriving DecidableEq, Repr

/-- `OKXOrderBookActionId` (data_structures.h lines 25-28). -/
inductive OKXOrderBookActionId where
  | Snapshot
  | Update
deriving DecidableEq, Repr

/-- `OrderBookSnapshot` (data_structures.h lines 197-216): a timestamped
order-book event with its action tag and the raw text `[price, quantity, ...]`
entries per side. -/
structure OrderBookSnapshot where
  symbol_id : SymbolId
  timestamp_ms : Int
  action_id : OKXOrderBookActionId
  asks : List (List String)
  bids : List (List String)
deriving DecidableEq, Repr

/-- `TradeData` (data_structures.h lines 219-241). -/
structure TradeData where
  symbol_id : SymbolId
  timestamp_ms : Int
  trade_id : Int
  price : utils.Decimal
  quantity : utils.Decimal
  is_buy : Bool
deriving DecidableEq, Repr

namespace processors

open utils

/-- The representation of `std::map<Decimal, Decimal>`: an association list
kept strictly ascending in the key order `Decimal::operator<`, iterated in
that order (as `std::map` iteration is). -/
abbrev PriceMap := List (Decimal × Decimal)

/-- `std::map::operator[] = q` on a `Decimal`-keyed map: insert in key order,
or overwrite the mapped value of an equivalent key (the stored key object is
kept, as `std::map` keeps it). -/
def mapInsert (k v : Decimal) : PriceMap → PriceMap
  | [] => [(k, v)]
  | (k', v') :: rest =>
    if k.dlt k' then (k, v) :: (k', v') :: rest
    else if k'.dlt k then (k', v') :: mapInsert k v rest
    else (k', v) :: rest

/-- `std::map::erase(key)`: remove the entry whose key is equivalent to `k`
(neither compares less than the other); absence is a no-op. -/
def mapErase (k : Decimal) : PriceMap → PriceMap
  | [] => []
  | (k', v') :: rest =>
    if !k.dlt k' && !k'.dlt k then rest
    else (k', v') :: mapErase k rest

/-- `std::map::find`-style lookup by key equivalence, returning the mapped
quantity. -/
def mapLookup (k : Decimal) : PriceMap → Option Decimal
  | [] => none
  | (k', v') :: rest =>
    if !k.dlt k' && !k'.dlt k then some v'
    else mapLookup k rest

/-- `DataSetCalculator::OrderBookState` (data_set_calculator.h lines 26-30). -/
structure OrderBookState where
  ask_quantity_by_price : PriceMap := []
  bid_quantity_by_price : PriceMap := []
  initialized : Bool := false
deriving DecidableEq, Repr

/-- `DataSetCalculator::isValidQuantity` (data_set_calculator.cpp lines
402-404): `!quantity.isZero() && quantity.isPositive()`. -/
def isValidQuantity (quantity : Decimal) : Bool :=
  !quantity.isZero && quantity.isPositive

/-- `DataSetCalculator::isValidPrice` (data_set_calculator.cpp lines
398-400). -/
def isValidPrice (price : Decimal) : Bool :=
  !price.isZero && price.isPositive

/-- One side of `DataSetCalculator::initializeOrderBookState`
(data_set_calculator.cpp lines 249-258 / 261-270): entries shorter than two
fields are skipped; both fields are parsed at the default precision (a parse
failure throws, modelled `none`); only valid (positive) quantities are
inserted. -/
def applySnapshotSide : List (List String) → PriceMap → Option PriceMap
  | [], m => some m
  | (priceS :: quantityS :: _) :: rest, m => do
    let price ← Decimal.fromString priceS
    let quantity ← Decimal.fromString quantityS
    applySnapshotSide rest (if isValidQuantity quantity then mapInsert price quantity m else m)
  | _ :: rest, m => applySnapshotSide rest m

/-- One side of `DataSetCalculator::updateOrderBookState`
(data_set_calculator.cpp lines 277-288 / 291-302): valid quantities are
inserted or replace the entry; invalid ones erase it. -/
def applyUpdateSide : List (List String) → PriceMap → Option PriceMap
  | [], m => some m
  | (priceS :: quantityS :: _) :: rest, m => do
    let price ← Decimal.fromString priceS
    let quantity ← Decimal.fromString quantityS
    applyUpdateSide rest
      (if isValidQuantity quantity then mapInsert price quantity m else mapErase price m)
  | _ :: rest, m => applyUpdateSide rest m

/-- `DataSetCalculator::initializeOrderBookState` (data_set_calculator.cpp
lines 244-273): clear both maps, fill them from the snapshot, set the
`initialized` flag. -/
def initializeOrderBookState (snapshot : OrderBookSnapshot) : Option OrderBookState := do
  let asks ← applySnapshotSide snapshot.asks []
  let bids ← applySnapshotSide snapshot.bids []
  some { ask_quantity_by_price := asks, bid_quantity_by_price := bids, initialized := true }

/-- `DataSetCalculator::updateOrderBookState` (data_set_calculator.cpp lines
275-303): asks processed first, then bids. -/
def updateOrderBookState (state : OrderBookState) (update : OrderBookSnapshot) :
    Option OrderBookState := do
  let asks ← applyUpdateSide update.asks state.ask_quantity_by_price
  let bids ← applyUpdateSide update.bids state.bid_quantity_by_price
  some { state with ask_quantity_by_price := asks, bid_quantity_by_price := bids }

/-- `DataSetCalculator::OrderBookStatistics` (data_set_calculator.h lines
32-41), all fields zero-initialized with `Decimal(int64_t 0)`. -/
structure OrderBookStatistics where
  total_quantity : Decimal := Decimal.ZERO
  total_volume : Decimal := Decimal.ZERO
  max_price : Decimal := Decimal.ZERO
  max_quantity : Decimal := Decimal.ZERO
  max_volume : Decimal := Decimal.ZERO
  min_price : Decimal := Decimal.ZERO
  min_quantity : Decimal := Decimal.ZERO
  min_volume : Decimal := Decimal.ZERO
deriving DecidableEq, Repr

/-- Loop body of `DataSetCalculator::calculateOrderBookStatistics`
(data_set_calculator.cpp lines 314-337); the `Bool` is the `first` flag. -/
def obStatsStep (acc : OrderBookStatistics × Bool) (pq : Decimal × Decimal) :
    OrderBookStatistics × Bool :=
  let (stats, first) := acc
  let (price, quantity) := pq
  let volume := price.mul quantity
  let stats :=
    if first then
      { stats with max_price := price, min_price := price, max_quantity := quantity,
                   min_quantity := quantity, max_volume := volume, min_volume := volume }
    else
      let stats := if price.dgt stats.max_price then { stats with max_price := price } else stats
      let stats := if price.dlt stats.min_price then { stats with min_price := price } else stats
      let stats :=
        if quantity.dgt stats.max_quantity then { stats with max_quantity := quantity } else stats
      let stats :=
        if quantity.dlt stats.min_quantity then { stats with min_quantity := quantity } else stats
      let stats := if volume.dgt stats.max_volume then { stats with max_volume := volume } else stats
      if volume.dlt stats.min_volume then { stats with min_volume := volume } else stats
  ({ stats with total_quantity := stats.total_quantity.add quantity,
                total_volume := stats.total_volume.add volume }, false)

/-- `DataSetCalculator::calculateOrderBookStatistics` (data_set_calculator.cpp
lines 305-340). -/
def calculateOrderBookStatistics (quantity_by_price : PriceMap) : OrderBookStatistics :=
  (quantity_by_price.foldl obStatsStep ({}, true)).1

/-- `DataSetCalculator::TradeStatistics` as the implementation uses it
(data_set_calculator.cpp lines 348, 362-392): every field zero-initialized,
with zero acting as the "unset" sentinel for ids, prices and the start
timestamp.  (The header declares some of these fields as `std::optional`,
but the implementation code manipulates them as plain zero-initialized
values; the embedding follows the implementation.) -/
structure TradeStatistics where
  buy_quantity : Decimal := Decimal.ZERO
  buy_trades_count : Int := 0
  buy_volume : Decimal := Decimal.ZERO
  close_price : Decimal := Decimal.ZERO
  high_price : Decimal := Decimal.ZERO
  low_price : Decimal := Decimal.ZERO
  open_price : Decimal := Decimal.ZERO
  start_trade_id : Int := 0
  end_trade_id : Int := 0
  start_timestamp_ms : Int := 0
  total_quantity : Decimal := Decimal.ZERO
  total_trades_count : Int := 0
  total_volume : Decimal := Decimal.ZERO
deriving DecidableEq, Repr

/-- The per-trade statistics update inside `calculateTradeStatistics`
(data_set_calculator.cpp lines 361-392). -/
def tradeStep (stats : TradeStatistics) (trade : TradeData) : TradeStatistics :=
  let stats :=
    if stats.start_trade_id = 0 then
      { stats with start_trade_id := trade.trade_id, start_timestamp_ms := trade.timestamp_ms }
    else stats
  let stats := { stats with end_trade_id := trade.trade_id }
  let stats := if stats.open_price.isZero then { stats with open_price := trade.price } else stats
  let stats := { stats with close_price := trade.price }
  let stats :=
    if stats.high_price.isZero || trade.price.dgt stats.high_price then
      { stats with high_price := trade.price }
    else stats
  let stats :=
    if stats.low_price.isZero || trade.price.dlt stats.low_price then
      { stats with low_price := trade.price }
    else stats
  let trade_volume := trade.price.mul trade.quantity
  let stats :=
    if trade.is_buy then
      { stats with buy_quantity := stats.buy_quantity.add trade.quantity,
                   buy_trades_count := stats.buy_trades_count + 1,
                   buy_volume := stats.buy_volume.add trade_volume }
    else stats
  { stats with total_quantity := stats.total_quantity.add trade.quantity,
               total_trades_count := stats.total_trades_count + 1,
               total_volume := stats.total_volume.add trade_volume }

/-- The scan loop of `calculateTradeStatistics` (data_set_calculator.cpp
lines 351-393) over the trades from index `idx` on: a trade before the
window is skipped, the first trade at or past `endTs` stops the scan and
becomes the new cursor, and `cur0` is the cursor value to return when the
scan falls off the end of the list (the C++ reference parameter is only
assigned on the break). -/
def calcTradeStatsAux (startTs endTs : Int) :
    List TradeData → Nat → Nat → TradeStatistics → TradeStatistics × Nat
  | [], _, cur0, stats => (stats, cur0)
  | t :: rest, idx, cur0, stats =>
    if t.timestamp_ms < startTs then calcTradeStatsAux startTs endTs rest (idx + 1) cur0 stats
    else if endTs ≤ t.timestamp_ms then (stats, idx)
    else calcTradeStatsAux startTs endTs rest (idx + 1) cur0 (tradeStep stats t)

/-- `DataSetCalculator::calculateTradeStatistics` (data_set_calculator.cpp
lines 342-396); the returned `Nat` is the value of the by-reference
`start_trade_idx` cursor after the call. -/
def calculateTradeStatistics (trades : List TradeData) (startTs endTs : Int) (cursor : Nat) :
    TradeStatistics × Nat :=
  calcTradeStatsAux startTs endTs (trades.drop cursor) cursor cursor {}

/-- Index (counting from `idx`) of the first trade of the list whose
timestamp is at or past `endTs`, if any: the position at which the scan
loop of `calculateTradeStatistics` breaks. -/
def firstGE (endTs : Int) : List TradeData → Nat → Option Nat
  | [], _ => none
  | t :: rest, idx => if endTs ≤ t.timestamp_ms then some idx else firstGE endTs rest (idx + 1)

/-- `OKXDataSetRecordData` (data_structures.h lines 74-194), zero-initialized
by its constructor. -/
structure OKXDataSetRecordData where
  symbol_id : SymbolId
  data_set_idx : Int
  record_idx : Int
  buy_quantity : Decimal := Decimal.ZERO
  buy_trades_count : Int := 0
  buy_volume : Decimal := Decimal.ZERO
  close_price : Decimal := Decimal.ZERO
  end_asks_total_quantity : Decimal := Decimal.ZERO
  end_asks_total_volume : Decimal := Decimal.ZERO
  max_end_ask_price : Decimal := Decimal.ZERO
  max_end_ask_quantity : Decimal := Decimal.ZERO
  max_end_ask_volume : Decimal := Decimal.ZERO
  min_end_ask_price : Decimal := Decimal.ZERO
  min_end_ask_quantity : Decimal := Decimal.ZERO
  min_end_ask_volume : Decimal := Decimal.ZERO
  end_bids_total_quantity : Decimal := Decimal.ZERO
  end_bids_total_volume : Decimal := Decimal.ZERO
  max_end_bid_price : Decimal := Decimal.ZERO
  max_end_bid_quantity : Decimal := Decimal.ZERO
  max_end_bid_volume : Decimal := Decimal.ZERO
  min_end_bid_price : Decimal := Decimal.ZERO
  min_end_bid_quantity : Decimal := Decimal.ZERO
  min_end_bid_volume : Decimal := Decimal.ZERO
  end_timestamp_ms : Int := 0
  end_trade_id : Int := 0
  high_price : Decimal := Decimal.ZERO
  start_asks_total_quantity : Decimal := Decimal.ZERO
  start_asks_total_volume : Decimal := Decimal.ZERO
  max_start_ask_price : Decimal := Decimal.ZERO
  max_start_ask_quantity : Decimal := Decimal.ZERO
  max_start_ask_volume : Decimal := Decimal.ZERO
  min_start_ask_price : Decimal := Decimal.ZERO
  min_start_ask_quantity : Decimal := Decimal.ZERO
  min_start_ask_volume : Decimal := Decimal.ZERO
  start_bids_total_quantity : Decimal := Decimal.ZERO
  start_bids_total_volume : Decimal := Decimal.ZERO
  max_start_bid_price : Decimal := Decimal.ZERO
  max_start_bid_quantity : Decimal := Decimal.ZERO
  max_start_bid_volume : Decimal := Decimal.ZERO
  min_start_bid_price : Decimal := Decimal.ZERO
  min_start_bid_quantity : Decimal := Decimal.ZERO
  min_start_bid_volume : Decimal := Decimal.ZERO
  low_price : Decimal := Decimal.ZERO
  open_price : Decimal := Decimal.ZERO
  start_timestamp_ms : Int := 0
  start_trade_id : Int := 0
  total_quantity : Decimal := Decimal.ZERO
  total_trades_count : Int := 0
  total_volume : Decimal := Decimal.ZERO
deriving DecidableEq, Repr

/-- The group of sixteen `start_*` local variables of
`calculateFinalDataSet` for one book side (data_set_calculator.cpp lines
34-50), all initialized to `Decimal::ZERO`. -/
structure StartSideStats where
  total_quantity : Decimal := Decimal.ZERO
  total_volume : Decimal := Decimal.ZERO
  max_price : Decimal := Decimal.ZERO
  max_quantity : Decimal := Decimal.ZERO
  max_volume : Decimal := Decimal.ZERO
  min_price : Decimal := Decimal.ZERO
  min_quantity : Decimal := Decimal.ZERO
  min_volume : Decimal := Decimal.ZERO
deriving DecidableEq, Repr

/-- Body of the per-entry start-statistics loop of `calculateFinalDataSet`
(data_set_calculator.cpp lines 82-106 for asks, 111-135 for bids); the
`Bool` is the per-iteration `first_ask` / `first_bid` flag. -/
def startSideStep (acc : StartSideStats × Bool) (pq : Decimal × Decimal) :
    StartSideStats × Bool :=
  let (s, first) := acc
  let (price, quantity) := pq
  let s :=
    if first then
      { s with max_price := price, min_price := price,
               max_quantity := quantity, min_quantity := quantity }
    else
      let s := if price.dgt s.max_price then { s with max_price := price } else s
      let s := if price.dlt s.min_price then { s with min_price := price } else s
      let s := if quantity.dgt s.max_quantity then { s with max_quantity := quantity } else s
      if quantity.dlt s.min_quantity then { s with min_quantity := quantity } else s
  let volume := price.mul quantity
  let s := { s with total_quantity := s.total_quantity.add quantity,
                    total_volume := s.total_volume.add volume }
  let s :=
    if s.max_volume.isZero || volume.dgt s.max_volume then { s with max_volume := volume } else s
  let s :=
    if s.min_volume.isZero || volume.dlt s.min_volume then { s with min_volume := volume } else s
  (s, false)

/-- One execution of the start-statistics capture block for one side
(data_set_calculator.cpp lines 80-107 / 109-136), run against the
pre-update book map; note that it accumulates into the existing running
variables rather than resetting them. -/
def captureStartSide (s : StartSideStats) (m : PriceMap) : StartSideStats :=
  (m.foldl startSideStep (s, true)).1

/-- The per-call mutable locals of `calculateFinalDataSet`
(data_set_calculator.cpp lines 28-53) threaded through the interval loop. -/
structure CalcState where
  obState : OrderBookState := {}
  start_trade_idx : Nat := 0
  record_idx : Int := 0
  startAsks : StartSideStats := {}
  startBids : StartSideStats := {}
  start_timestamp_ms : Int := 0
  records : List OKXDataSetRecordData := []
deriving DecidableEq, Repr

/-- The exceptions `calculateFinalDataSet` can raise: the two
`std::runtime_error` snapshot-ordering throws (data_set_calculator.cpp lines
70, 75) and any `std::invalid_argument` escaping `Decimal::fromString`
during book initialization or update. -/
inductive CalcErr where
  | firstNotSnapshot
  | updateExpected
  | parseError
deriving DecidableEq, Repr

/-- Lift the `Option` of a throwing parse into the calculator's exception
monad. -/
def ofParse {α : Type} : Option α → Except CalcErr α
  | some a => .ok a
  | none => .error .parseError

/-- The snapshot-ordering check and lazy initialization at the top of each
loop iteration (data_set_calculator.cpp lines 67-77). -/
def initOrCheck (st : CalcState) (current : OrderBookSnapshot) :
    Except CalcErr OrderBookState :=
  if st.obState.initialized = false then
    if current.action_id ≠ .Snapshot then .error .firstNotSnapshot
    else ofParse (initializeOrderBookState current)
  else
    if current.action_id ≠ .Update then .error .updateExpected
    else .ok st.obState

/-- The pure tail of one loop iteration after the book update succeeded
(data_set_calculator.cpp lines 141-237): end statistics, trade statistics,
the `start_timestamp_ms` latch, and conditional record emission. -/
def calcStepEmit (symbol_id : SymbolId) (data_set_idx : Int) (trades : List TradeData)
    (st : CalcState) (startAsks startBids : StartSideStats) (obState : OrderBookState)
    (current next : OrderBookSnapshot) : CalcState :=
  let end_ask_stats := calculateOrderBookStatistics obState.ask_quantity_by_price
  let end_bid_stats := calculateOrderBookStatistics obState.bid_quantity_by_price
  let tsc :=
    calculateTradeStatistics trades current.timestamp_ms next.timestamp_ms st.start_trade_idx
  let trade_stats := tsc.1
  let cursor := tsc.2
  let start_timestamp_ms :=
    if st.start_timestamp_ms = 0 then current.timestamp_ms else st.start_timestamp_ms
  if 0 < trade_stats.total_trades_count then
    let record : OKXDataSetRecordData :=
      { symbol_id := symbol_id
        data_set_idx := data_set_idx
        record_idx := st.record_idx
        buy_quantity := trade_stats.buy_quantity
        buy_trades_count := trade_stats.buy_trades_count
        buy_volume := trade_stats.buy_volume
        close_price := trade_stats.close_price
        end_asks_total_quantity := end_ask_stats.total_quantity
        end_asks_total_volume := end_ask_stats.total_volume
        max_end_ask_price := end_ask_stats.max_price
        max_end_ask_quantity := end_ask_stats.max_quantity
        max_end_ask_volume := end_ask_stats.max_volume
        min_end_ask_price := end_ask_stats.min_price
        min_end_ask_quantity := end_ask_stats.min_quantity
        min_end_ask_volume := end_ask_stats.min_volume
        end_bids_total_quantity := end_bid_stats.total_quantity
        end_bids_total_volume := end_bid_stats.total_volume
        max_end_bid_price := end_bid_stats.max_price
        max_end_bid_quantity := end_bid_stats.max_quantity
        max_end_bid_volume := end_bid_stats.max_volume
        min_end_bid_price := end_bid_stats.min_price
        min_end_bid_quantity := end_bid_stats.min_quantity
        min_end_bid_volume := end_bid_stats.min_volume
        end_timestamp_ms := next.timestamp_ms
        end_trade_id := trade_stats.end_trade_id
        high_price := trade_stats.high_price
        start_asks_total_quantity := startAsks.total_quantity
        start_asks_total_volume := startAsks.total_volume
        max_start_ask_price := startAsks.max_price
        max_start_ask_quantity := startAsks.max_quantity
        max_start_ask_volume := startAsks.max_volume
        min_start_ask_price := startAsks.min_price
        min_start_ask_quantity := startAsks.min_quantity
        min_start_ask_volume := startAsks.min_volume
        start_bids_total_quantity := startBids.total_quantity
        start_bids_total_volume := startBids.total_volume
        max_start_bid_price := startBids.max_price
        max_start_bid_quantity := startBids.max_quantity
        max_start_bid_volume := startBids.max_volume
        min_start_bid_price := startBids.min_price
        min_start_bid_quantity := startBids.min_quantity
        min_start_bid_volume := startBids.min_volume
        low_price := trade_stats.low_price
        open_price := trade_stats.open_price
        start_timestamp_ms := start_timestamp_ms
        start_trade_id := trade_stats.start_trade_id
        total_quantity := trade_stats.total_quantity
        total_trades_count := trade_stats.total_trades_count
        total_volume := trade_stats.total_volume }
    { obState := obState
      start_trade_idx := cursor
      record_idx := st.record_idx + 1
      startAsks := startAsks
      startBids := startBids
      start_timestamp_ms := 0
      records := st.records ++ [record] }
  else
    { obState := obState
      start_trade_idx := cursor
      record_idx := st.record_idx
      startAsks := startAsks
      startBids := startBids
      start_timestamp_ms := start_timestamp_ms
      records := st.records }

/-- One iteration of the interval loop of `calculateFinalDataSet`
(data_set_calculator.cpp lines 56-238) for the adjacent event pair
`(current, next)`. -/
def calcStep (symbol_id : SymbolId) (data_set_idx : Int) (trades : List TradeData)
    (st : CalcState) (current next : OrderBookSnapshot) : Except CalcErr CalcState := do
  let obState ← initOrCheck st current
  let startAsks :=
    if st.startAsks.total_volume.isZero then
      captureStartSide st.startAsks obState.ask_quantity_by_price
    else st.startAsks
  let startBids :=
    if st.startBids.total_volume.isZero then
      captureStartSide st.startBids obState.bid_quantity_by_price
    else st.startBids
  let obState ← ofParse (updateOrderBookState obState next)
  pure (calcStepEmit symbol_id data_set_idx trades st startAsks startBids obState current next)

/-- `DataSetCalculator::calculateFinalDataSet` (data_set_calculator.cpp
lines 9-242).  Fewer than two events short-circuits to an empty list; the
loop runs over adjacent event pairs (the `order_books` vector built at lines
24-26 is the input vector unchanged); a throw anywhere discards the records
accumulated so far. -/
def calculateFinalDataSet (symbol_id : SymbolId) (order_book_snapshots : List OrderBookSnapshot)
    (trades : List TradeData) (data_set_idx : Int) :
    Except CalcErr (List OKXDataSetRecordData) :=
  if order_book_snapshots.length < 2 then .ok []
  else do
    let st ← (order_book_snapshots.zip order_book_snapshots.tail).foldlM
      (fun st pair => calcStep symbol_id data_set_idx trades st pair.1 pair.2)
      ({} : CalcState)
    pure st.records

/-- The per-window trade counts of a call: the `total_trades_count` each
window's `calculateTradeStatistics` call produces, with the cursor threaded
exactly as `calculateFinalDataSet` threads `start_trade_idx`. -/
def windowTradeCounts (order_book_snapshots : List OrderBookSnapshot)
    (trades : List TradeData) : List Int :=
  ((order_book_snapshots.zip order_book_snapshots.tail).foldl
    (fun (acc : List Int × Nat) pair =>
      ((acc.1 ++
         [(calculateTradeStatistics trades pair.1.timestamp_ms pair.2.timestamp_ms
             acc.2).1.total_trades_count],
        (calculateTradeStatistics trades pair.1.timestamp_ms pair.2.timestamp_ms acc.2).2)))
    ([], 0)).1

/-- A price/quantity entry is parseable: either too short to be processed, or
its first two fields parse as default-precision decimals. -/
def validEntry : List String → Bool
  | priceS :: quantityS :: _ =>
    (Decimal.fromString priceS).isSome && (Decimal.fromString quantityS).isSome
  | _ => true

/-- Every entry of both sides of the event is parseable, so processing the
event can only fail on the snapshot-ordering checks. -/
def validEvent (e : OrderBookSnapshot) : Bool :=
  e.asks.all validEntry && e.bids.all validEntry

/-- Every stored quantity of the map is strictly positive. -/
def AllPosQty (m : PriceMap) : Prop := ∀ pq ∈ m, 0 < pq.2.value

/-- The eight ask-side "start" statistics stored in a record, bundled for
comparison across records. -/
def askStartOf (r : OKXDataSetRecordData) : StartSideStats :=
  { total_quantity := r.start_asks_total_quantity
    total_volume := r.start_asks_total_volume
    max_price := r.max_start_ask_price
    max_quantity := r.max_start_ask_quantity
    max_volume := r.max_start_ask_volume
    min_price := r.min_start_ask_price
    min_quantity := r.min_start_ask_quantity
    min_volume := r.min_start_ask_volume }

/-- The eight bid-side "start" statistics stored in a record. -/
def bidStartOf (r : OKXDataSetRecordData) : StartSideStats :=
  { total_quantity := r.start_bids_total_quantity
    total_volume := r.start_bids_total_volume
    max_price := r.max_start_bid_price
    max_quantity := r.max_start_bid_quantity
    max_volume := r.max_start_bid_volume
    min_price := r.min_start_bid_price
    min_quantity := r.min_start_bid_quantity
    min_volume := r.min_start_bid_volume }

/-- A record with no meaningful content, used only as a `headD` fallback in
closed statements about concrete outputs. -/
def emptyRecord : OKXDataSetRecordData :=
  { symbol_id := .BTC_USDT, data_set_idx := -1, record_idx := -1 }

end processors

namespace claims

open utils processors

/-- The Decimal parsed from the trade price string of the two-event test
scenario. -/
def c1price : Decimal := (Decimal.fromString "50000").getD Decimal.ZERO

/-- The Decimal parsed from the trade quantity string of the two-event test
scenario. -/
def c1qty : Decimal := (Decimal.fromString "0.1").getD Decimal.ZERO

/-- The two order-book events of the scenario: a Snapshot at 1000 ms and an
Update at 2000 ms, with no book content. -/
def c1events : List OrderBookSnapshot :=
  [⟨.BTC_USDT, 1000, .Snapshot, [], []⟩, ⟨.BTC_USDT, 2000, .Update, [], []⟩]

/-- The single trade of the scenario: timestamp 1500 ms, id 1, price
"50000", quantity "0.1", buy. -/
def c1trades : List TradeData := [⟨.BTC_USDT, 1500, 1, c1price, c1qty, true⟩]

/-- The record list the calculator produces on the scenario. -/
def c1records : List OKXDataSetRecordData :=
  (calculateFinalDataSet .BTC_USDT c1events c1trades 0).toOption.getD []

/-- `Decimal("900")`: scaled value `9 * 10^18`, in `int64_t` range. -/
def c2a : Decimal := (Decimal.fromString "900").getD Decimal.ZERO

/-- `Decimal("100")`: scaled value `10^18`, in `int64_t` range. -/
def c2b : Decimal := (Decimal.fromString "100").getD Decimal.ZERO

/-- `Decimal("1844.674")` at the default precision: the scaled value
`18446740000000000000` exceeds `2^63` and wraps to `-4073709551616`. -/
def c9parsed : Decimal := (Decimal.fromString "1844.674").getD Decimal.ZERO

/-- The Decimal obtained by parsing `toString` of `c9parsed` back. -/
def c9reparsed : Decimal := (Decimal.fromString "0.0004073709551616").getD Decimal.ZERO

/-- `Decimal("50000")` at the default precision. -/
def c10a : Decimal := (Decimal.fromString "50000").getD Decimal.ZERO

/-- `Decimal("0.1")` at the default precision. -/
def c10b : Decimal := (Decimal.fromString "0.1").getD Decimal.ZERO

/-- A Snapshot event at 1000 ms with no book content. -/
def c4snapA : OrderBookSnapshot := ⟨.BTC_USDT, 1000, .Snapshot, [], []⟩

/-- A second Snapshot event at 2000 ms: the last event of the
counterexample sequence. -/
def c4snapB : OrderBookSnapshot := ⟨.BTC_USDT, 2000, .Snapshot, [], []⟩

/-- Snapshot event for the reachable-state witness: two ask levels (one with
quantity "0", which must be dropped) and one bid level. -/
def c6snap : OrderBookSnapshot :=
  ⟨.BTC_USDT, 1000, .Snapshot, [["100", "1"], ["101", "0"]], [["99", "2"]]⟩

/-- Update events for the reachable-state witness: erase one ask level,
insert another, and touch an absent bid level. -/
def c6updates : List OrderBookSnapshot :=
  [⟨.BTC_USDT, 2000, .Update, [["100", "0"], ["102", "3"]], []⟩,
   ⟨.BTC_USDT, 3000, .Update, [], [["98", "0"], ["99", "5"]]⟩]

/-- The state initialized from `c6snap`. -/
def c6st0 : OrderBookState := (initializeOrderBookState c6snap).getD {}

/-- The state after replaying `c6updates` from `c6st0`. -/
def c6stF : OrderBookState := (c6updates.foldlM updateOrderBookState c6st0).getD {}

/-- `Decimal("100")`, an order-book price key. -/
def c5k100 : Decimal := (Decimal.fromString "100").getD Decimal.ZERO

/-- `Decimal("101")`, an order-book price key. -/
def c5k101 : Decimal := (Decimal.fromString "101").getD Decimal.ZERO

/-- `Decimal("99")`, an order-book price key. -/
def c5k99 : Decimal := (Decimal.fromString "99").getD Decimal.ZERO

/-- `Decimal("1")`, an order-book quantity. -/
def c5v1 : Decimal := (Decimal.fromString "1").getD Decimal.ZERO

/-- `Decimal("2")`, an order-book quantity. -/
def c5v2 : Decimal := (Decimal.fromString "2").getD Decimal.ZERO

/-- A concrete initialized order-book state with two ask levels and one bid
level, keys in ascending `operator<` order. -/
def c5state : OrderBookState :=
  { ask_quantity_by_price := [(c5k100, c5v1), (c5k101, c5v2)]
    bid_quantity_by_price := [(c5k99, c5v1)]
    initialized := true }

/-- `Decimal("1")`, used as the price and quantity of the cursor-test
trades. -/
def c7price : Decimal := (Decimal.fromString "1").getD Decimal.ZERO

/-- A single trade at timestamp 5, inside the window `[0, 10)`. -/
def c7trades : List TradeData := [⟨.BTC_USDT, 5, 1, c7price, c7price, true⟩]

/-- Three ascending trades: before, inside and after the window
`[1000, 2000)`. -/
def c7wtrades : List TradeData :=
  [⟨.BTC_USDT, 900, 1, c7price, c7price, true⟩,
   ⟨.BTC_USDT, 1500, 2, c7price, c7price, false⟩,
   ⟨.BTC_USDT, 2500, 3, c7price, c7price, true⟩]

/-- The loop invariant behind the global freeze of "start" statistics: every
already-emitted record whose stored start-side total volume is non-zero
carries exactly the current running start-side statistics, and records
emitted later than such a record carry the same bundle. -/
def C3Inv (st : CalcState) : Prop :=
  (∀ r ∈ st.records, r.start_asks_total_volume.isZero = false → askStartOf r = st.startAsks) ∧
  (∀ r ∈ st.records, r.start_bids_total_volume.isZero = false → bidStartOf r = st.startBids) ∧
  st.records.Pairwise
    (fun r1 r2 => r1.start_asks_total_volume.isZero = false → askStartOf r2 = askStartOf r1) ∧
  st.records.Pairwise
    (fun r1 r2 => r1.start_bids_total_volume.isZero = false → bidStartOf r2 = bidStartOf r1)

/-- Three order-book events for the freeze witness: a snapshot with one ask
and one bid level, then two content-free updates. -/
def c3events : List OrderBookSnapshot :=
  [⟨.BTC_USDT, 1000, .Snapshot, [["100", "1"]], [["99", "2"]]⟩,
   ⟨.BTC_USDT, 2000, .Update, [], []⟩,
   ⟨.BTC_USDT, 3000, .Update, [], []⟩]

/-- Two trades, one in each window of `c3events`. -/
def c3trades : List TradeData :=
  [⟨.BTC_USDT, 1500, 1, c7price, c7price, true⟩,
   ⟨.BTC_USDT, 2500, 2, c7price, c7price, false⟩]

/-- The two records produced on the freeze witness input. -/
def c3records : List OKXDataSetRecordData :=
  (calculateFinalDataSet .BTC_USDT c3events c3trades 5).toOption.getD []

/-- The loop invariant coupling the calculator state with the
`windowTradeCounts` accumulator: the cursors agree, `record_idx` counts the
emitted records, the emitted records are exactly the positive-count
windows, every emitted record's `record_idx` is its position, and every
emitted record carries the caller's dataset index and a positive trade
count. -/
def C8Inv (dsIdx : Int) (st : CalcState) (acc : List Int × Nat) : Prop :=
  st.start_trade_idx = acc.2 ∧
  st.record_idx = (st.records.length : Int) ∧
  st.records.length = (acc.1.filter (fun c => decide (0 < c))).length ∧
  (∀ i, i < st.records.length → (st.records.getD i emptyRecord).record_idx = (i : Int)) ∧
  (∀ r ∈ st.records, r.data_set_idx = dsIdx ∧ 0 < r.total_trades_count)

/-- Three order-book events for the emission witness. -/
def c8events : List OrderBookSnapshot :=
  [⟨.BTC_USDT, 1000, .Snapshot, [], []⟩,
   ⟨.BTC_USDT, 2000, .Update, [], []⟩,
   ⟨.BTC_USDT, 3000, .Update, [], []⟩]

/-- A single trade inside the second window of `c8events` only. -/
def c8trades : List TradeData := [⟨.BTC_USDT, 2500, 1, c7price, c7price, true⟩]

/-- The records produced on the emission witness input. -/
def c8records : List OKXDataSetRecordData :=
  (calculateFinalDataSet .BTC_USDT c8events c8trades 7).toOption.getD []

end claims

namespace claims

open utils processors

/-- C1: for the input with exactly two order-book events at timestamps 1000
(Snapshot) and 2000 (Update) and exactly one trade at timestamp 1500 with
id 1, price "50000", quantity "0.1", buy flag true, `calculateFinalDataSet`
returns exactly one record, with total_trades_count = 1,
buy_trades_count = 1, open = close = high = low price equal to the Decimal
parsed from "50000", start_trade_id = end_trade_id = 1, and
end_timestamp_ms = 2000. -/
theorem c1_single_trade_record :
    Decimal.fromString "50000" = some c1price ∧
    calculateFinalDataSet .BTC_USDT c1events c1trades 0 = .ok c1records ∧
    c1records.length = 1 ∧
    (c1records.headD emptyRecord).total_trades_count = 1 ∧
    (c1records.headD emptyRecord).buy_trades_count = 1 ∧
    (c1records.headD emptyRecord).open_price = c1price ∧
    (c1records.headD emptyRecord).close_price = c1price ∧
    (c1records.headD emptyRecord).high_price = c1price ∧
    (c1records.headD emptyRecord).low_price = c1price ∧
    (c1records.headD emptyRecord).start_trade_id = 1 ∧
    (c1records.headD emptyRecord).end_trade_id = 1 ∧
    (c1records.headD emptyRecord).end_timestamp_ms = 2000 := by
  decide

/-- C2 (failing input): Decimal arithmetic is not exact at typical
crypto-price magnitudes.  `Decimal("900")` and `Decimal("100")` are both
positive and exactly representable, yet their sum — which should be 1000 —
wraps past `2^63` at the default precision 16 and comes out as the negative
value `-844.6744073709551616`. -/
theorem c2_addition_of_typical_prices_overflows :
    Decimal.fromString "900" = some c2a ∧
    Decimal.fromString "100" = some c2b ∧
    c2a.isPositive = true ∧ c2b.isPositive = true ∧
    (c2a.add c2b).isNegative = true ∧
    (c2a.add c2b).value = -8446744073709551616 ∧
    (c2a.add c2b).toStringM = .ok "-844.6744073709551616" := by
  decide

/-- C9 (failing input): the parse/format round-trip is not value-preserving
for the typical price string "1844.674".  Its scaled value overflows
`int64_t` into the window `(-10^16, 0)`, `toString` then drops the sign
(the truncated integer part is 0), and re-parsing the formatted string
yields a value that `operator==` does not consider equal to the original. -/
theorem c9_roundtrip_changes_value :
    Decimal.fromString "1844.674" = some c9parsed ∧
    c9parsed.toStringM = .ok "0.0004073709551616" ∧
    Decimal.fromString "0.0004073709551616" = some c9reparsed ∧
    c9reparsed.deq c9parsed = false ∧
    c9parsed.deq c9reparsed = false := by
  decide

/-- C10 (counterexample): `toString` on the product of two
default-precision Decimals does not throw the invalid-argument exception —
precision 32 passes the `<= MAX_PRECISION` guard, and the failure is the
out-of-bounds read `scaleFactors[32]` past the 19-entry table (undefined
behavior), a distinct outcome from the thrown `std::invalid_argument`. -/
theorem c10_product_toString_not_invalid_argument :
    Decimal.fromString "50000" = some c10a ∧
    Decimal.fromString "0.1" = some c10b ∧
    c10a.precision = DEFAULT_PRECISION ∧
    c10b.precision = DEFAULT_PRECISION ∧
    (c10a.mul c10b).toStringM = .oob ∧
    (c10a.mul c10b).toStringM ≠ .invalidArg := by
  decide

/-- C10 (amended): multiplying two Decimals of the default precision 16
produces precision 32 (no scale-down, since 32 does not exceed
MAX_PRECISION = 36); the scale-factor table only covers precisions 0..18,
so `toString` on the product performs an out-of-bounds table read
(undefined behavior in the C++), rather than returning a value — and rather
than throwing `std::invalid_argument`. -/
theorem c10_default_mul_toString_out_of_bounds (a b : Decimal)
    (ha : a.precision = DEFAULT_PRECISION) (hb : b.precision = DEFAULT_PRECISION) :
    (a.mul b).precision = 32 ∧ (a.mul b).toStringM = .oob := by
  have hp : (a.mul b).precision = 32 := by
    simp only [Decimal.mul, ha, hb]
    norm_num [DEFAULT_PRECISION, MAX_PRECISION]
  refine ⟨hp, ?_⟩
  unfold Decimal.toStringM
  rw [hp]
  rfl

/-- Witness for C10's amended theorem at the concrete operands
`Decimal("50000")` and `Decimal("0.1")`. -/
theorem c10_default_mul_toString_out_of_bounds_witness :
    c10a.precision = DEFAULT_PRECISION ∧ c10b.precision = DEFAULT_PRECISION ∧
    ((c10a.mul c10b).precision = 32 ∧ (c10a.mul c10b).toStringM = .oob) :=
  ⟨by decide, by decide,
   c10_default_mul_toString_out_of_bounds c10a c10b (by decide) (by decide)⟩

/-- C4 (counterexample): an event sequence of two events whose last event is
tagged Snapshot is not rejected — the last event's action tag is never
validated (it is only ever consumed as the update side of a pair), so
`calculateFinalDataSet` returns an empty record list instead of raising a
validation error. -/
theorem c4_trailing_snapshot_accepted :
    ([c4snapA, c4snapB] : List OrderBookSnapshot).length = 2 ∧
    [c4snapA, c4snapB].getLast? = some c4snapB ∧
    c4snapB.action_id = .Snapshot ∧
    calculateFinalDataSet .BTC_USDT [c4snapA, c4snapB] [] 0 = .ok [] := by
  decide

/-- `isValidQuantity` holds exactly on strictly positive stored values. -/
theorem isValidQuantity_iff_pos (q : Decimal) : isValidQuantity q = true ↔ 0 < q.value := by
  simp only [isValidQuantity, Decimal.isZero, Decimal.isPositive, Bool.and_eq_true,
    Bool.not_eq_true', beq_eq_false_iff_ne, ne_eq, decide_eq_true_eq]
  omega

/-- Inserting a positive quantity preserves all-positive maps. -/
theorem allPos_mapInsert {m : PriceMap} {k v : Decimal}
    (hm : AllPosQty m) (hv : 0 < v.value) : AllPosQty (mapInsert k v m) := by
  induction m with
  | nil =>
    intro pq hpq
    simp only [mapInsert, List.mem_singleton] at hpq
    simpa [hpq] using hv
  | cons hd tl ih =>
    intro pq hpq
    have hhd : 0 < hd.2.value := hm hd (List.mem_cons_self hd tl)
    have htl : AllPosQty tl := fun x hx => hm x (List.mem_cons_of_mem hd hx)
    simp only [mapInsert] at hpq
    by_cases h1 : k.dlt hd.1 = true
    · simp only [h1, if_true, List.mem_cons] at hpq
      rcases hpq with h | h | h
      · simpa [h] using hv
      · simpa [h] using hhd
      · exact hm pq (List.mem_cons_of_mem hd h)
    · simp only [h1, if_false, Bool.false_eq_true] at hpq
      by_cases h2 : hd.1.dlt k = true
      · simp only [h2, if_true, List.mem_cons] at hpq
        rcases hpq with h | h
        · simpa [h] using hhd
        · exact ih htl pq h
      · simp only [h2, if_false, Bool.false_eq_true, List.mem_cons] at hpq
        rcases hpq with h | h
        · simpa [h] using hv
        · exact hm pq (List.mem_cons_of_mem hd h)

/-- Erasing preserves all-positive maps. -/
theorem allPos_mapErase {m : PriceMap} {k : Decimal}
    (hm : AllPosQty m) : AllPosQty (mapErase k m) := by
  induction m with
  | nil => intro pq hpq; simp [mapErase] at hpq
  | cons hd tl ih =>
    intro pq hpq
    have hhd : 0 < hd.2.value := hm hd (List.mem_cons_self hd tl)
    have htl : AllPosQty tl := fun x hx => hm x (List.mem_cons_of_mem hd hx)
    simp only [mapErase] at hpq
    by_cases h1 : (!k.dlt hd.1 && !hd.1.dlt k) = true
    · simp only [h1, if_true] at hpq
      exact htl pq hpq
    · simp only [h1, if_false, Bool.false_eq_true, List.mem_cons] at hpq
      rcases hpq with h | h
      · simpa [h] using hhd
      · exact ih htl pq h

/-- Snapshot-side processing only ever inserts valid (positive)
quantities. -/
theorem applySnapshotSide_allPos :
    ∀ (entries : List (List String)) (m m' : PriceMap),
      AllPosQty m → applySnapshotSide entries m = some m' → AllPosQty m' := by
  intro entries
  induction entries with
  | nil => intro m m' hm h; simp only [applySnapshotSide] at h; cases h; exact hm
  | cons e rest ih =>
    intro m m' hm h
    match e with
    | [] =>
      simp only [applySnapshotSide] at h
      exact ih m m' hm h
    | [x] =>
      simp only [applySnapshotSide] at h
      exact ih m m' hm h
    | priceS :: quantityS :: more =>
      simp only [applySnapshotSide, Option.bind_eq_bind] at h
      cases hp : Decimal.fromString priceS with
      | none => rw [hp] at h; simp at h
      | some price =>
        cases hq : Decimal.fromString quantityS with
        | none => rw [hp, hq] at h; simp at h
        | some quantity =>
          rw [hp, hq] at h
          simp only [Option.some_bind] at h
          by_cases hvq : isValidQuantity quantity = true
          · rw [if_pos hvq] at h
            exact ih _ m' (allPos_mapInsert hm ((isValidQuantity_iff_pos quantity).mp hvq)) h
          · rw [if_neg hvq] at h
            exact ih m m' hm h

/-- Update-side processing inserts valid quantities and erases on invalid
ones, preserving all-positive maps. -/
theorem applyUpdateSide_allPos :
    ∀ (entries : List (List String)) (m m' : PriceMap),
      AllPosQty m → applyUpdateSide entries m = some m' → AllPosQty m' := by
  intro entries
  induction entries with
  | nil => intro m m' hm h; simp only [applyUpdateSide] at h; cases h; exact hm
  | cons e rest ih =>
    intro m m' hm h
    match e with
    | [] =>
      simp only [applyUpdateSide] at h
      exact ih m m' hm h
    | [x] =>
      simp only [applyUpdateSide] at h
      exact ih m m' hm h
    | priceS :: quantityS :: more =>
      simp only [applyUpdateSide, Option.bind_eq_bind] at h
      cases hp : Decimal.fromString priceS with
      | none => rw [hp] at h; simp at h
      | some price =>
        cases hq : Decimal.fromString quantityS with
        | none => rw [hp, hq] at h; simp at h
        | some quantity =>
          rw [hp, hq] at h
          simp only [Option.some_bind] at h
          by_cases hvq : isValidQuantity quantity = true
          · rw [if_pos hvq] at h
            exact ih _ m' (allPos_mapInsert hm ((isValidQuantity_iff_pos quantity).mp hvq)) h
          · rw [if_neg hvq] at h
            exact ih _ m' (allPos_mapErase hm) h

/-- Initialization yields all-positive maps on both sides. -/
theorem initializeOrderBookState_allPos {snapshot : OrderBookSnapshot} {st : OrderBookState}
    (h : initializeOrderBookState snapshot = some st) :
    AllPosQty st.ask_quantity_by_price ∧ AllPosQty st.bid_quantity_by_price := by
  simp only [initializeOrderBookState, Option.bind_eq_bind] at h
  cases ha : applySnapshotSide snapshot.asks [] with
  | none => rw [ha] at h; simp at h
  | some asks =>
    cases hb : applySnapshotSide snapshot.bids [] with
    | none => rw [ha, hb] at h; simp at h
    | some bids =>
      rw [ha, hb] at h
      simp only [Option.some_bind] at h
      cases h
      have hnil : AllPosQty ([] : PriceMap) := by intro pq hpq; simp at hpq
      exact ⟨applySnapshotSide_allPos _ _ _ hnil ha, applySnapshotSide_allPos _ _ _ hnil hb⟩

/-- Updating preserves all-positive maps on both sides. -/
theorem updateOrderBookState_allPos {state : OrderBookState} {update : OrderBookSnapshot}
    {st' : OrderBookState}
    (ha : AllPosQty state.ask_quantity_by_price) (hb : AllPosQty state.bid_quantity_by_price)
    (h : updateOrderBookState state update = some st') :
    AllPosQty st'.ask_quantity_by_price ∧ AllPosQty st'.bid_quantity_by_price := by
  simp only [updateOrderBookState, Option.bind_eq_bind] at h
  cases hua : applyUpdateSide update.asks state.ask_quantity_by_price with
  | none => rw [hua] at h; simp at h
  | some asks =>
    cases hub : applyUpdateSide update.bids state.bid_quantity_by_price with
    | none => rw [hua, hub] at h; simp at h
    | some bids =>
      rw [hua, hub] at h
      simp only [Option.some_bind] at h
      cases h
      exact ⟨applyUpdateSide_allPos _ _ _ ha hua, applyUpdateSide_allPos _ _ _ hb hub⟩

/-- C6: for every order-book state reachable by initializing from one
snapshot and then applying any finite sequence of updates, no entry with a
zero or negative quantity is present in either side's map: snapshot
initialization inserts only pairs with quantity > 0, and update application
never leaves a non-positive quantity in a map. -/
theorem c6_reachable_states_all_positive (snapshot : OrderBookSnapshot)
    (updates : List OrderBookSnapshot) (st0 stF : OrderBookState)
    (h0 : initializeOrderBookState snapshot = some st0)
    (hF : updates.foldlM updateOrderBookState st0 = some stF) :
    AllPosQty stF.ask_quantity_by_price ∧ AllPosQty stF.bid_quantity_by_price := by
  have h0' := initializeOrderBookState_allPos h0
  clear h0
  induction updates generalizing st0 with
  | nil =>
    simp only [List.foldlM_nil] at hF
    cases hF
    exact h0'
  | cons u rest ih =>
    simp only [List.foldlM_cons, Option.bind_eq_bind] at hF
    cases hu : updateOrderBookState st0 u with
    | none => rw [hu] at hF; simp at hF
    | some st1 =>
      rw [hu] at hF
      simp only [Option.some_bind] at hF
      exact ih st1 hF (updateOrderBookState_allPos h0'.1 h0'.2 hu)

/-- Witness for C6 on a concrete snapshot-plus-updates replay. -/
theorem c6_reachable_states_all_positive_witness :
    initializeOrderBookState c6snap = some c6st0 ∧
    c6updates.foldlM updateOrderBookState c6st0 = some c6stF ∧
    (AllPosQty c6stF.ask_quantity_by_price ∧ AllPosQty c6stF.bid_quantity_by_price) :=
  ⟨by decide, by decide,
   c6_reachable_states_all_positive c6snap c6updates c6st0 c6stF (by decide) (by decide)⟩

/-- `scaleFactor 0 = 1`: scaling by a zero precision difference is the
identity. -/
theorem scaleFactor_zero : scaleFactor 0 = 1 := rfl

/-- `Decimal::operator<` is irreflexive. -/
theorem dlt_irrefl (k : Decimal) : k.dlt k = false := by
  simp [Decimal.dlt, Decimal.normalizePrecision]

/-- At equal precisions, `Decimal::operator<` compares the wrapped stored
values directly. -/
theorem dlt_same_prec {a b : Decimal} (h : a.precision = b.precision) :
    a.dlt b = true ↔ wrap64 a.value < wrap64 b.value := by
  simp [Decimal.dlt, Decimal.normalizePrecision, h, scaleFactor_zero]

/-- Looking up the key just inserted returns the inserted quantity. -/
theorem mapLookup_mapInsert_self (k v : Decimal) (m : PriceMap) :
    mapLookup k (mapInsert k v m) = some v := by
  induction m with
  | nil => simp [mapInsert, mapLookup, dlt_irrefl]
  | cons hd tl ih =>
    by_cases h1 : k.dlt hd.1 = true
    · simp [mapInsert, h1, mapLookup, dlt_irrefl]
    · by_cases h2 : hd.1.dlt k = true
      · simp [mapInsert, h1, h2, mapLookup, ih]
      · simp [mapInsert, h1, h2, mapLookup]

/-- Erasing an absent key is a no-op. -/
theorem mapErase_of_lookup_none {k : Decimal} {m : PriceMap}
    (h : mapLookup k m = none) : mapErase k m = m := by
  induction m with
  | nil => rfl
  | cons hd tl ih =>
    by_cases hc : (!k.dlt hd.1 && !hd.1.dlt k) = true
    · simp [mapLookup, hc] at h
    · simp only [mapLookup, hc, Bool.false_eq_true, if_false] at h
      simp [mapErase, hc, ih h]

/-- A key strictly below every stored key is absent. -/
theorem mapLookup_none_of_all_dlt {k : Decimal} {m : PriceMap}
    (h : ∀ x ∈ m, k.dlt x.1 = true) : mapLookup k m = none := by
  induction m with
  | nil => rfl
  | cons hd tl ih =>
    have hhd := h hd (List.mem_cons_self hd tl)
    simp only [mapLookup, hhd, Bool.not_true, Bool.false_and, Bool.false_eq_true, if_false]
    exact ih fun x hx => h x (List.mem_cons_of_mem hd hx)

/-- On a key-sorted map whose keys share the probe key's precision, erasing
the key leaves no equivalent entry behind. -/
theorem mapLookup_mapErase_self {k : Decimal} {m : PriceMap}
    (hprec : ∀ x ∈ m, x.1.precision = k.precision)
    (hsort : m.Pairwise (fun x y => x.1.dlt y.1 = true)) :
    mapLookup k (mapErase k m) = none := by
  induction m with
  | nil => rfl
  | cons hd tl ih =>
    rcases List.pairwise_cons.mp hsort with ⟨hhd, htl⟩
    have hprechd : hd.1.precision = k.precision := hprec hd (List.mem_cons_self hd tl)
    have hprectl : ∀ x ∈ tl, x.1.precision = k.precision :=
      fun x hx => hprec x (List.mem_cons_of_mem hd hx)
    by_cases hc : (!k.dlt hd.1 && !hd.1.dlt k) = true
    · simp only [mapErase, hc, if_true]
      have hc1' : k.dlt hd.1 = false := by
        cases hkh : k.dlt hd.1
        · rfl
        · rw [hkh] at hc; simp at hc
      have hc2' : hd.1.dlt k = false := by
        cases hhk : hd.1.dlt k
        · rfl
        · rw [hhk] at hc; simp at hc
      have heqv : wrap64 k.value = wrap64 hd.1.value := by
        have n1 : ¬ wrap64 k.value < wrap64 hd.1.value := by
          intro hlt
          rw [(dlt_same_prec hprechd.symm).mpr hlt] at hc1'
          exact Bool.true_eq_false.mp hc1'
        have n2 : ¬ wrap64 hd.1.value < wrap64 k.value := by
          intro hlt
          rw [(dlt_same_prec hprechd).mpr hlt] at hc2'
          exact Bool.true_eq_false.mp hc2'
        omega
      refine mapLookup_none_of_all_dlt fun x hx => ?_
      have hdx := hhd x hx
      have hwlt : wrap64 hd.1.value < wrap64 x.1.value :=
        (dlt_same_prec (by rw [hprechd, hprectl x hx])).mp hdx
      exact (dlt_same_prec (hprectl x hx).symm).mpr (by omega)
    · have hc' : (!k.dlt hd.1 && !hd.1.dlt k) = false := by
        cases hb : (!k.dlt hd.1 && !hd.1.dlt k)
        · rfl
        · exact absurd hb hc
      simp only [mapErase, hc', Bool.false_eq_true, if_false, mapLookup]
      exact ih hprectl htl

/-- The precision of a default-precision parse result. -/
theorem fromString_precision {s : String} {d : Decimal}
    (h : Decimal.fromString s = some d) : d.precision = DEFAULT_PRECISION := by
  simp only [Decimal.fromString, DEFAULT_PRECISION, MAX_PRECISION] at h ⊢
  rw [if_neg (by norm_num)] at h
  rcases Option.map_eq_some'.mp h with ⟨v, _, rfl⟩
  rfl

/-- `isValidQuantity` as a decision of strict positivity. -/
theorem isValidQuantity_eq_decide (q : Decimal) :
    isValidQuantity q = decide (0 < q.value) := by
  by_cases h : 0 < q.value
  · rw [(isValidQuantity_iff_pos q).mpr h]
    simp [h]
  · have hfalse : isValidQuantity q = false := by
      cases hb : isValidQuantity q
      · rfl
      · exact absurd ((isValidQuantity_iff_pos q).mp hb) h
    rw [hfalse]
    simp [h]

/-- C5: for every order-book state and a one-pair update event, applying the
update inserts or replaces the side's entry at the parsed price when the
parsed quantity is positive and removes it otherwise (absence being a
no-op), touching nothing else: an update whose bid list is empty leaves the
bid map exactly unchanged, and symmetrically an update whose ask list is
empty leaves the ask map exactly unchanged.  The lookup facts assume the
side map is `operator<`-sorted with default-precision keys, which is the
`std::map` representation invariant for maps built from parsed prices. -/
theorem c5_applyUpdate_inserts_or_erases (state : OrderBookState) (sid : SymbolId) (ts : Int)
    (priceS quantityS : String) (price quantity : Decimal)
    (hp : Decimal.fromString priceS = some price)
    (hq : Decimal.fromString quantityS = some quantity)
    (hsortA : state.ask_quantity_by_price.Pairwise (fun x y => x.1.dlt y.1 = true))
    (hprecA : ∀ x ∈ state.ask_quantity_by_price, x.1.precision = DEFAULT_PRECISION) :
    (updateOrderBookState state ⟨sid, ts, .Update, [[priceS, quantityS]], []⟩ = some
      { state with ask_quantity_by_price :=
          if 0 < quantity.value then mapInsert price quantity state.ask_quantity_by_price
          else mapErase price state.ask_quantity_by_price }) ∧
    (0 < quantity.value →
      mapLookup price (mapInsert price quantity state.ask_quantity_by_price) = some quantity) ∧
    (¬ 0 < quantity.value →
      mapLookup price (mapErase price state.ask_quantity_by_price) = none) ∧
    (mapLookup price state.ask_quantity_by_price = none →
      mapErase price state.ask_quantity_by_price = state.ask_quantity_by_price) ∧
    (updateOrderBookState state ⟨sid, ts, .Update, [], [[priceS, quantityS]]⟩ = some
      { state with bid_quantity_by_price :=
          if 0 < quantity.value then mapInsert price quantity state.bid_quantity_by_price
          else mapErase price state.bid_quantity_by_price }) := by
  have hifs : ∀ m : PriceMap,
      (if isValidQuantity quantity = true then mapInsert price quantity m
       else mapErase price m) =
      (if 0 < quantity.value then mapInsert price quantity m else mapErase price m) := by
    intro m
    by_cases h : 0 < quantity.value
    · rw [if_pos ((isValidQuantity_iff_pos quantity).mpr h), if_pos h]
    · rw [if_neg h, if_neg (fun hb => h ((isValidQuantity_iff_pos quantity).mp hb))]
  refine ⟨?_, ?_, ?_, ?_, ?_⟩
  · simp only [updateOrderBookState, applyUpdateSide, hp, hq, Option.bind_eq_bind,
      Option.some_bind, hifs]
  · intro _
    exact mapLookup_mapInsert_self price quantity state.ask_quantity_by_price
  · intro _
    refine mapLookup_mapErase_self ?_ hsortA
    intro x hx
    rw [hprecA x hx, fromString_precision hp]
  · exact fun habs => mapErase_of_lookup_none habs
  · simp only [updateOrderBookState, applyUpdateSide, hp, hq, Option.bind_eq_bind,
      Option.some_bind, hifs]

/-- Witness for C5 on a concrete sorted book state: the update
`[["100", "0"]]` on the ask side (an erase) with untouched bids. -/
theorem c5_applyUpdate_inserts_or_erases_witness :
    (Decimal.fromString "100" = some c5k100 ∧
     Decimal.fromString "0" = some Decimal.ZERO ∧
     c5state.ask_quantity_by_price.Pairwise (fun x y => x.1.dlt y.1 = true) ∧
     (∀ x ∈ c5state.ask_quantity_by_price, x.1.precision = DEFAULT_PRECISION) ∧
     ¬ 0 < Decimal.ZERO.value) ∧
    (updateOrderBookState c5state ⟨.BTC_USDT, 2000, .Update, [["100", "0"]], []⟩ = some
      { c5state with ask_quantity_by_price :=
          if 0 < Decimal.ZERO.value then mapInsert c5k100 Decimal.ZERO c5state.ask_quantity_by_price
          else mapErase c5k100 c5state.ask_quantity_by_price }) ∧
    mapLookup c5k100 (mapErase c5k100 c5state.ask_quantity_by_price) = none ∧
    (updateOrderBookState c5state ⟨.BTC_USDT, 2000, .Update, [], [["100", "0"]]⟩ = some
      { c5state with bid_quantity_by_price :=
          if 0 < Decimal.ZERO.value then
            mapInsert c5k100 Decimal.ZERO c5state.bid_quantity_by_price
          else mapErase c5k100 c5state.bid_quantity_by_price }) :=
  ⟨⟨by decide, by decide, by decide, by decide, by decide⟩,
   (c5_applyUpdate_inserts_or_erases c5state .BTC_USDT 2000 "100" "0" c5k100 Decimal.ZERO
     (by decide) (by decide) (by decide) (by decide)).1,
   (c5_applyUpdate_inserts_or_erases c5state .BTC_USDT 2000 "100" "0" c5k100 Decimal.ZERO
     (by decide) (by decide) (by decide) (by decide)).2.2.1 (by decide),
   (c5_applyUpdate_inserts_or_erases c5state .BTC_USDT 2000 "100" "0" c5k100 Decimal.ZERO
     (by decide) (by decide) (by decide) (by decide)).2.2.2.2⟩

/-- The scan loop of `calculateTradeStatistics`, characterized on an
ascending trade list and a well-formed window: it folds the statistics
update over exactly the in-window trades, and the returned cursor is the
position of the first trade at or past `endTs` when one exists and the
original cursor value otherwise. -/
theorem calcTradeStatsAux_spec (startTs endTs : Int) (hW : startTs ≤ endTs) :
    ∀ (l : List TradeData) (idx cur0 : Nat) (stats : TradeStatistics),
      l.Pairwise (fun a b => a.timestamp_ms ≤ b.timestamp_ms) →
      calcTradeStatsAux startTs endTs l idx cur0 stats =
        ((l.filter fun t => startTs ≤ t.timestamp_ms && t.timestamp_ms < endTs).foldl
           tradeStep stats,
         (firstGE endTs l idx).getD cur0) := by
  intro l
  induction l with
  | nil => intro idx cur0 stats _; rfl
  | cons t rest ih =>
    intro idx cur0 stats hsort
    rcases List.pairwise_cons.mp hsort with ⟨hall, hrest⟩
    by_cases h1 : t.timestamp_ms < startTs
    · have hnotend : ¬ endTs ≤ t.timestamp_ms := by omega
      have hpred : (startTs ≤ t.timestamp_ms && t.timestamp_ms < endTs) = false := by
        have : ¬ startTs ≤ t.timestamp_ms := by omega
        simp [this]
      simp only [calcTradeStatsAux, if_pos h1, List.filter_cons, hpred, Bool.false_eq_true,
        if_false, firstGE, if_neg hnotend]
      exact ih (idx + 1) cur0 stats hrest
    · by_cases h2 : endTs ≤ t.timestamp_ms
      · have hpred : (startTs ≤ t.timestamp_ms && t.timestamp_ms < endTs) = false := by
          have : ¬ t.timestamp_ms < endTs := by omega
          simp [this]
        have hfilter :
            rest.filter (fun a => startTs ≤ a.timestamp_ms && a.timestamp_ms < endTs) = [] := by
          refine List.filter_eq_nil_iff.mpr fun a ha => ?_
          have := hall a ha
          simp only [Bool.and_eq_true, decide_eq_true_eq, not_and]
          omega
        simp only [calcTradeStatsAux, if_neg h1, if_pos h2, List.filter_cons, hpred,
          Bool.false_eq_true, if_false, hfilter, List.foldl_nil, firstGE, Option.getD_some]
      · have hpred : (startTs ≤ t.timestamp_ms && t.timestamp_ms < endTs) = true := by
          simp only [Bool.and_eq_true, decide_eq_true_eq]
          omega
        simp only [calcTradeStatsAux, if_neg h1, if_neg h2, List.filter_cons, hpred, if_true,
          List.foldl_cons, firstGE]
        exact ih (idx + 1) cur0 (tradeStep stats t) hrest

/-- C7 (amended): for every ascending-timestamp trade list, well-formed
window `[startTs, endTs)` and cursor position, `calculateTradeStatistics`
skips trades with timestamp below `startTs` and aggregates exactly the
trades with `startTs <= timestamp < endTs` at or after the cursor; on
return, if some trade at or after the cursor has timestamp `>= endTs`, the
cursor is positioned at the first such trade, and otherwise the cursor is
left unchanged (not advanced past the consumed trades). -/
theorem c7_window_scan_characterization (trades : List TradeData) (startTs endTs : Int)
    (cursor : Nat) (hW : startTs ≤ endTs)
    (hsorted : trades.Pairwise (fun a b => a.timestamp_ms ≤ b.timestamp_ms)) :
    calculateTradeStatistics trades startTs endTs cursor =
      (((trades.drop cursor).filter
          (fun t => startTs ≤ t.timestamp_ms && t.timestamp_ms < endTs)).foldl tradeStep {},
       (firstGE endTs (trades.drop cursor) cursor).getD cursor) := by
  unfold calculateTradeStatistics
  exact calcTradeStatsAux_spec startTs endTs hW (trades.drop cursor) cursor cursor {}
    (hsorted.sublist (List.drop_sublist cursor trades))

/-- Witness for C7's amended characterization on three concrete trades
around the window `[1000, 2000)`. -/
theorem c7_window_scan_characterization_witness :
    ((1000 : Int) ≤ 2000 ∧
     c7wtrades.Pairwise (fun a b => a.timestamp_ms ≤ b.timestamp_ms)) ∧
    calculateTradeStatistics c7wtrades 1000 2000 0 =
      (((c7wtrades.drop 0).filter
          (fun t => 1000 ≤ t.timestamp_ms && t.timestamp_ms < 2000)).foldl tradeStep {},
       (firstGE 2000 (c7wtrades.drop 0) 0).getD 0) :=
  ⟨⟨by decide, by decide⟩,
   c7_window_scan_characterization c7wtrades 1000 2000 0 (by decide) (by decide)⟩

/-- C7 (counterexample): when no trade at or after the cursor reaches
`endTs`, the cursor is not repositioned at all: on the single trade at
timestamp 5 with window `[0, 10)` and cursor 0, the trade is aggregated but
the returned cursor is still 0 — it points at the already-consumed trade
(whose timestamp is below `endTs`), not at a trade with timestamp
`>= endTs` and not past the end of the list. -/
theorem c7_cursor_left_inside_window :
    (calculateTradeStatistics c7trades 0 10 0).1.total_trades_count = 1 ∧
    (calculateTradeStatistics c7trades 0 10 0).2 = 0 ∧
    (c7trades.get ⟨0, by decide⟩).timestamp_ms < 10 ∧
    (calculateTradeStatistics c7trades 0 10 0).2 ≠ c7trades.length := by
  decide

/-- Shape of one loop tail: the running start statistics are stored back
unchanged, and at most one record — carrying exactly those statistics — is
appended. -/
theorem calcStepEmit_records (sid : SymbolId) (dsIdx : Int) (trades : List TradeData)
    (st : CalcState) (A B : StartSideStats) (ob : OrderBookState)
    (cur next : OrderBookSnapshot) :
    (calcStepEmit sid dsIdx trades st A B ob cur next).startAsks = A ∧
    (calcStepEmit sid dsIdx trades st A B ob cur next).startBids = B ∧
    ((calcStepEmit sid dsIdx trades st A B ob cur next).records = st.records ∨
      ∃ rec, (calcStepEmit sid dsIdx trades st A B ob cur next).records = st.records ++ [rec] ∧
        askStartOf rec = A ∧ bidStartOf rec = B) := by
  unfold calcStepEmit
  by_cases h : 0 < (calculateTradeStatistics trades cur.timestamp_ms next.timestamp_ms
      st.start_trade_idx).1.total_trades_count
  · rw [if_pos h]
    exact ⟨rfl, rfl, Or.inr ⟨_, rfl, rfl, rfl⟩⟩
  · rw [if_neg h]
    exact ⟨rfl, rfl, Or.inl rfl⟩

/-- Successful loop iterations factor through `initOrCheck`, the book
update, and the pure tail, with the start statistics updated only under the
zero-volume guard. -/
theorem calcStep_ok {sid : SymbolId} {dsIdx : Int} {trades : List TradeData}
    {st : CalcState} {cur next : OrderBookSnapshot} {st' : CalcState}
    (h : calcStep sid dsIdx trades st cur next = .ok st') :
    ∃ ob ob', initOrCheck st cur = .ok ob ∧ updateOrderBookState ob next = some ob' ∧
      st' = calcStepEmit sid dsIdx trades st
        (if st.startAsks.total_volume.isZero then
          captureStartSide st.startAsks ob.ask_quantity_by_price
         else st.startAsks)
        (if st.startBids.total_volume.isZero then
          captureStartSide st.startBids ob.bid_quantity_by_price
         else st.startBids)
        ob' cur next := by
  unfold calcStep at h
  cases hio : initOrCheck st cur with
  | error e => rw [hio] at h; simp [Bind.bind, Except.bind] at h
  | ok ob =>
    rw [hio] at h
    simp only [Bind.bind, Except.bind] at h
    cases hup : updateOrderBookState ob next with
    | none => rw [hup] at h; simp [ofParse] at h
    | some ob' =>
      rw [hup] at h
      simp only [ofParse, pure, Except.pure, Except.ok.injEq] at h
      exact ⟨ob, ob', rfl, hup, h.symm⟩

/-- The loop tail preserves the freeze invariant, provided the start
statistics it stores agree with the running ones whenever those already
have non-zero total volume. -/
theorem calcStepEmit_c3inv (sid : SymbolId) (dsIdx : Int) (trades : List TradeData)
    (st : CalcState) (A B : StartSideStats) (ob : OrderBookState)
    (cur next : OrderBookSnapshot) (hInv : C3Inv st)
    (hA : st.startAsks.total_volume.isZero = false → A = st.startAsks)
    (hB : st.startBids.total_volume.isZero = false → B = st.startBids) :
    C3Inv (calcStepEmit sid dsIdx trades st A B ob cur next) := by
  obtain ⟨hSA, hSB, hrec⟩ := calcStepEmit_records sid dsIdx trades st A B ob cur next
  obtain ⟨h1, h2, h3, h4⟩ := hInv
  have h1' : ∀ r ∈ st.records, r.start_asks_total_volume.isZero = false → askStartOf r = A := by
    intro r hr hnz
    have he := h1 r hr hnz
    have hv : st.startAsks.total_volume.isZero = false := by
      have hvol : (askStartOf r).total_volume = st.startAsks.total_volume :=
        congrArg StartSideStats.total_volume he
      rw [← hvol]
      exact hnz
    rw [he, hA hv]
  have h2' : ∀ r ∈ st.records, r.start_bids_total_volume.isZero = false → bidStartOf r = B := by
    intro r hr hnz
    have he := h2 r hr hnz
    have hv : st.startBids.total_volume.isZero = false := by
      have hvol : (bidStartOf r).total_volume = st.startBids.total_volume :=
        congrArg StartSideStats.total_volume he
      rw [← hvol]
      exact hnz
    rw [he, hB hv]
  rcases hrec with hsame | ⟨rec, happ, hrecA, hrecB⟩
  · refine ⟨?_, ?_, ?_, ?_⟩
    · intro r hr hnz; rw [hsame] at hr; rw [hSA]; exact h1' r hr hnz
    · intro r hr hnz; rw [hsame] at hr; rw [hSB]; exact h2' r hr hnz
    · rw [hsame]; exact h3
    · rw [hsame]; exact h4
  · refine ⟨?_, ?_, ?_, ?_⟩
    · intro r hr hnz
      rw [happ] at hr
      rw [hSA]
      rcases List.mem_append.mp hr with hold | hnew
      · exact h1' r hold hnz
      · rw [List.mem_singleton.mp hnew]; exact hrecA
    · intro r hr hnz
      rw [happ] at hr
      rw [hSB]
      rcases List.mem_append.mp hr with hold | hnew
      · exact h2' r hold hnz
      · rw [List.mem_singleton.mp hnew]; exact hrecB
    · rw [happ]
      refine List.pairwise_append.mpr ⟨h3, List.pairwise_singleton _ _, ?_⟩
      intro r1 hr1 r2 hr2 hnz
      rw [List.mem_singleton.mp hr2, hrecA, h1' r1 hr1 hnz]
    · rw [happ]
      refine List.pairwise_append.mpr ⟨h4, List.pairwise_singleton _ _, ?_⟩
      intro r1 hr1 r2 hr2 hnz
      rw [List.mem_singleton.mp hr2, hrecB, h2' r1 hr1 hnz]

/-- Every successful loop iteration preserves the freeze invariant. -/
theorem calcStep_c3inv {sid : SymbolId} {dsIdx : Int} {trades : List TradeData}
    {st : CalcState} {cur next : OrderBookSnapshot} {st' : CalcState}
    (h : calcStep sid dsIdx trades st cur next = .ok st') (hInv : C3Inv st) : C3Inv st' := by
  rcases calcStep_ok h with ⟨ob, ob', _, _, rfl⟩
  refine calcStepEmit_c3inv sid dsIdx trades st _ _ ob' cur next hInv ?_ ?_
  · intro hv
    rw [if_neg (by simp [hv])]
  · intro hv
    rw [if_neg (by simp [hv])]

/-- The interval fold preserves the freeze invariant. -/
theorem foldlM_c3inv (sid : SymbolId) (dsIdx : Int) (trades : List TradeData) :
    ∀ (ps : List (OrderBookSnapshot × OrderBookSnapshot)) (st stF : CalcState),
      C3Inv st →
      ps.foldlM (fun s p => calcStep sid dsIdx trades s p.1 p.2) st = .ok stF →
      C3Inv stF := by
  intro ps
  induction ps with
  | nil =>
    intro st stF hInv h
    simp only [List.foldlM_nil, pure, Except.pure, Except.ok.injEq] at h
    rw [← h]
    exact hInv
  | cons p rest ih =>
    intro st stF hInv h
    simp only [List.foldlM_cons] at h
    cases hstep : calcStep sid dsIdx trades st p.1 p.2 with
    | error e => rw [hstep] at h; simp [Bind.bind, Except.bind] at h
    | ok st1 =>
      rw [hstep] at h
      simp only [Bind.bind, Except.bind] at h
      exact ih st1 stF (calcStep_c3inv hstep hInv) h

/-- C3: "start" order-book statistics are frozen globally, not per window —
in every call, once a side's accumulated start total volume is non-zero (as
witnessed by a record storing a non-zero start total volume for that side),
every record emitted at or after that record carries the identical
start-side statistics bundle for that side. -/
theorem c3_start_stats_frozen_globally (sid : SymbolId) (events : List OrderBookSnapshot)
    (trades : List TradeData) (dsIdx : Int) (rs : List OKXDataSetRecordData)
    (h : calculateFinalDataSet sid events trades dsIdx = .ok rs)
    (i j : Nat) (hij : i ≤ j) (hj : j < rs.length) :
    ((rs.get ⟨i, lt_of_le_of_lt hij hj⟩).start_asks_total_volume.isZero = false →
      askStartOf (rs.get ⟨j, hj⟩) = askStartOf (rs.get ⟨i, lt_of_le_of_lt hij hj⟩)) ∧
    ((rs.get ⟨i, lt_of_le_of_lt hij hj⟩).start_bids_total_volume.isZero = false →
      bidStartOf (rs.get ⟨j, hj⟩) = bidStartOf (rs.get ⟨i, lt_of_le_of_lt hij hj⟩)) := by
  unfold calculateFinalDataSet at h
  by_cases hlen : events.length < 2
  · rw [if_pos hlen] at h
    simp only [Except.ok.injEq] at h
    rw [← h] at hj
    exact absurd hj (by simp)
  · rw [if_neg hlen] at h
    cases hf : (events.zip events.tail).foldlM
        (fun s p => calcStep sid dsIdx trades s p.1 p.2) ({} : CalcState) with
    | error e => rw [hf] at h; simp [Bind.bind, Except.bind] at h
    | ok stF =>
      rw [hf] at h
      simp only [Bind.bind, Except.bind, pure, Except.pure, Except.ok.injEq] at h
      have hInv0 : C3Inv ({} : CalcState) := by
        refine ⟨?_, ?_, ?_, ?_⟩ <;> simp [CalcState.records, List.Pairwise.nil]
      have hInvF := foldlM_c3inv sid dsIdx trades _ _ _ hInv0 hf
      obtain ⟨_, _, h3, h4⟩ := hInvF
      rw [h] at h3 h4
      rcases Nat.lt_or_ge i j with hlt | hge
      · constructor
        · exact (List.pairwise_iff_get.mp h3) ⟨i, lt_of_le_of_lt hij hj⟩ ⟨j, hj⟩ hlt
        · exact (List.pairwise_iff_get.mp h4) ⟨i, lt_of_le_of_lt hij hj⟩ ⟨j, hj⟩ hlt
      · have hji : i = j := le_antisymm hij hge
        subst hji
        exact ⟨fun _ => rfl, fun _ => rfl⟩

/-- Witness for C3 on a three-event input whose snapshot has non-empty book
content: both records exist, the first already stores non-zero start total
volumes, and the second carries identical bundles. -/
theorem c3_start_stats_frozen_globally_witness :
    (calculateFinalDataSet .BTC_USDT c3events c3trades 5 = .ok c3records ∧
     (0 : Nat) ≤ 1 ∧ 1 < c3records.length ∧
     (c3records.get ⟨0, by decide⟩).start_asks_total_volume.isZero = false ∧
     (c3records.get ⟨0, by decide⟩).start_bids_total_volume.isZero = false) ∧
    askStartOf (c3records.get ⟨1, by decide⟩) = askStartOf (c3records.get ⟨0, by decide⟩) ∧
    bidStartOf (c3records.get ⟨1, by decide⟩) = bidStartOf (c3records.get ⟨0, by decide⟩) :=
  ⟨⟨by decide, by decide, by decide, by decide, by decide⟩,
   (c3_start_stats_frozen_globally .BTC_USDT c3events c3trades 5 c3records (by decide)
     0 1 (by decide) (by decide)).1 (by decide),
   (c3_start_stats_frozen_globally .BTC_USDT c3events c3trades 5 c3records (by decide)
     0 1 (by decide) (by decide)).2 (by decide)⟩

/-- Defaulted indexing into a one-element append: positions inside the
prefix see the prefix, the final position sees the appended element. -/
theorem getD_append_singleton {α : Type} :
    ∀ (l : List α) (x d : α) (i : Nat), i < l.length + 1 →
      (l ++ [x]).getD i d = if i < l.length then l.getD i d else x := by
  intro l
  induction l with
  | nil =>
    intro x d i hi
    simp only [List.length_nil] at hi
    have hz : i = 0 := by omega
    subst hz
    simp [List.getD]
  | cons a tl ih =>
    intro x d i hi
    match i with
    | 0 => simp [List.getD]
    | n + 1 =>
      simp only [List.cons_append, List.getD, List.length_cons, List.get?_cons_succ]
      have hrec := ih x d n (by simpa using hi)
      simp only [List.getD] at hrec
      rw [hrec]
      by_cases hc : n < tl.length
      · rw [if_pos hc, if_pos (by omega)]
      · rw [if_neg hc, if_neg (by omega)]

/-- Fields of the loop tail when the window has at least one trade: the
cursor advances to the scan result, `record_idx` increments, and one record
carrying the previous `record_idx`, the caller's dataset index and the
window's trade count is appended. -/
theorem calcStepEmit_emit_pos (sid : SymbolId) (dsIdx : Int) (trades : List TradeData)
    (st : CalcState) (A B : StartSideStats) (ob : OrderBookState) (cur next : OrderBookSnapshot)
    (h : 0 < (calculateTradeStatistics trades cur.timestamp_ms next.timestamp_ms
        st.start_trade_idx).1.total_trades_count) :
    (calcStepEmit sid dsIdx trades st A B ob cur next).start_trade_idx =
      (calculateTradeStatistics trades cur.timestamp_ms next.timestamp_ms
        st.start_trade_idx).2 ∧
    (calcStepEmit sid dsIdx trades st A B ob cur next).record_idx = st.record_idx + 1 ∧
    ∃ rec, (calcStepEmit sid dsIdx trades st A B ob cur next).records = st.records ++ [rec] ∧
      rec.record_idx = st.record_idx ∧ rec.data_set_idx = dsIdx ∧
      rec.total_trades_count =
        (calculateTradeStatistics trades cur.timestamp_ms next.timestamp_ms
          st.start_trade_idx).1.total_trades_count := by
  unfold calcStepEmit
  rw [if_pos h]
  exact ⟨rfl, rfl, _, rfl, rfl, rfl, rfl⟩

/-- Fields of the loop tail when the window has no trade: the cursor still
advances to the scan result, but `record_idx` and the record list are left
unchanged. -/
theorem calcStepEmit_emit_neg (sid : SymbolId) (dsIdx : Int) (trades : List TradeData)
    (st : CalcState) (A B : StartSideStats) (ob : OrderBookState) (cur next : OrderBookSnapshot)
    (h : ¬ 0 < (calculateTradeStatistics trades cur.timestamp_ms next.timestamp_ms
        st.start_trade_idx).1.total_trades_count) :
    (calcStepEmit sid dsIdx trades st A B ob cur next).start_trade_idx =
      (calculateTradeStatistics trades cur.timestamp_ms next.timestamp_ms
        st.start_trade_idx).2 ∧
    (calcStepEmit sid dsIdx trades st A B ob cur next).record_idx = st.record_idx ∧
    (calcStepEmit sid dsIdx trades st A B ob cur next).records = st.records := by
  unfold calcStepEmit
  rw [if_neg h]
  exact ⟨rfl, rfl, rfl⟩

/-- Every successful loop iteration preserves the emission invariant,
stepping the `windowTradeCounts` accumulator in lock-step. -/
theorem calcStep_c8inv {sid : SymbolId} {dsIdx : Int} {trades : List TradeData}
    {st : CalcState} {cur next : OrderBookSnapshot} {st' : CalcState} {acc : List Int × Nat}
    (h : calcStep sid dsIdx trades st cur next = .ok st') (hInv : C8Inv dsIdx st acc) :
    C8Inv dsIdx st'
      (acc.1 ++
        [(calculateTradeStatistics trades cur.timestamp_ms next.timestamp_ms
           acc.2).1.total_trades_count],
       (calculateTradeStatistics trades cur.timestamp_ms next.timestamp_ms acc.2).2) := by
  rcases calcStep_ok h with ⟨ob, ob', _, _, rfl⟩
  obtain ⟨hcur, hidx, hlen, hget, hall⟩ := hInv
  rw [← hcur]
  by_cases hpos : 0 < (calculateTradeStatistics trades cur.timestamp_ms next.timestamp_ms
      st.start_trade_idx).1.total_trades_count
  · obtain ⟨f1, f2, rec, frec, fidx, fds, fcnt⟩ :=
      calcStepEmit_emit_pos sid dsIdx trades st _ _ ob' cur next hpos
    have hkeep : (decide (0 < (calculateTradeStatistics trades cur.timestamp_ms
        next.timestamp_ms st.start_trade_idx).1.total_trades_count)) = true := by
      simpa using hpos
    refine ⟨f1, ?_, ?_, ?_, ?_⟩
    · rw [f2, frec, hidx]
      simp only [List.length_append, List.length_singleton]
      push_cast
      ring
    · rw [frec, List.filter_append, List.filter_singleton, hkeep]
      simp [hlen]
    · intro i hi
      rw [frec] at hi ⊢
      simp only [List.length_append, List.length_singleton] at hi
      rw [getD_append_singleton st.records rec emptyRecord i hi]
      by_cases hcase : i < st.records.length
      · rw [if_pos hcase]
        exact hget i hcase
      · rw [if_neg hcase]
        have hieq : i = st.records.length := by omega
        rw [fidx, hidx, hieq]
    · intro r hr
      rw [frec] at hr
      rcases List.mem_append.mp hr with hold | hnew
      · exact hall r hold
      · rw [List.mem_singleton.mp hnew]
        exact ⟨fds, fcnt ▸ hpos⟩
  · obtain ⟨f1, f2, frec⟩ := calcStepEmit_emit_neg sid dsIdx trades st _ _ ob' cur next hpos
    have hdrop : (decide (0 < (calculateTradeStatistics trades cur.timestamp_ms
        next.timestamp_ms st.start_trade_idx).1.total_trades_count)) = false := by
      simpa using hpos
    refine ⟨f1, ?_, ?_, ?_, ?_⟩
    · rw [f2, frec, hidx]
    · rw [frec, List.filter_append, List.filter_singleton, hdrop]
      simp [hlen]
    · intro i hi
      rw [frec] at hi ⊢
      exact hget i hi
    · intro r hr
      rw [frec] at hr
      exact hall r hr

/-- The interval fold preserves the emission invariant against the
`windowTradeCounts` fold. -/
theorem foldlM_c8inv (sid : SymbolId) (dsIdx : Int) (trades : List TradeData) :
    ∀ (ps : List (OrderBookSnapshot × OrderBookSnapshot)) (st : CalcState)
      (acc : List Int × Nat) (stF : CalcState),
      C8Inv dsIdx st acc →
      ps.foldlM (fun s p => calcStep sid dsIdx trades s p.1 p.2) st = .ok stF →
      C8Inv dsIdx stF
        (ps.foldl (fun a p =>
          ((a.1 ++
             [(calculateTradeStatistics trades p.1.timestamp_ms p.2.timestamp_ms
                a.2).1.total_trades_count],
            (calculateTradeStatistics trades p.1.timestamp_ms p.2.timestamp_ms a.2).2))) acc) := by
  intro ps
  induction ps with
  | nil =>
    intro st acc stF hInv h
    simp only [List.foldlM_nil, pure, Except.pure, Except.ok.injEq] at h
    rw [List.foldl_nil, ← h]
    exact hInv
  | cons p rest ih =>
    intro st acc stF hInv h
    simp only [List.foldlM_cons] at h
    cases hstep : calcStep sid dsIdx trades st p.1 p.2 with
    | error e => rw [hstep] at h; simp [Bind.bind, Except.bind] at h
    | ok st1 =>
      rw [hstep] at h
      simp only [Bind.bind, Except.bind] at h
      rw [List.foldl_cons]
      exact ih st1 _ stF (calcStep_c8inv hstep hInv) h

/-- C8: in every successful call, a record is emitted exactly for the
windows whose trade count is at least 1 (the record list is as long as the
list of positive window counts), the i-th emitted record has
`record_idx = i` (starting at 0 per call and advancing only on emission),
and every emitted record carries the caller-supplied `data_set_idx` and a
positive trade count. -/
theorem c8_record_emission_indexing (sid : SymbolId) (events : List OrderBookSnapshot)
    (trades : List TradeData) (dsIdx : Int) (rs : List OKXDataSetRecordData)
    (h : calculateFinalDataSet sid events trades dsIdx = .ok rs) :
    (∀ i, i < rs.length → (rs.getD i emptyRecord).record_idx = (i : Int)) ∧
    (∀ r ∈ rs, r.data_set_idx = dsIdx ∧ 0 < r.total_trades_count) ∧
    rs.length = ((windowTradeCounts events trades).filter (fun c => decide (0 < c))).length := by
  unfold calculateFinalDataSet at h
  by_cases hlen : events.length < 2
  · rw [if_pos hlen] at h
    simp only [Except.ok.injEq] at h
    have hwin : windowTradeCounts events trades = [] := by
      match events, hlen with
      | [], _ => rfl
      | [e], _ => rfl
    rw [← h, hwin]
    exact ⟨fun i hi => absurd hi (by simp), fun r hr => absurd hr (by simp), rfl⟩
  · rw [if_neg hlen] at h
    cases hf : (events.zip events.tail).foldlM
        (fun s p => calcStep sid dsIdx trades s p.1 p.2) ({} : CalcState) with
    | error e => rw [hf] at h; simp [Bind.bind, Except.bind] at h
    | ok stF =>
      rw [hf] at h
      simp only [Bind.bind, Except.bind, pure, Except.pure, Except.ok.injEq] at h
      have hInv0 : C8Inv dsIdx ({} : CalcState) ([], 0) := by
        refine ⟨rfl, rfl, rfl, ?_, ?_⟩
        · intro i hi
          exact absurd hi (by simp [CalcState.records])
        · intro r hr
          exact absurd hr (by simp [CalcState.records])
      have hInvF := foldlM_c8inv sid dsIdx trades _ _ _ _ hInv0 hf
      obtain ⟨_, _, hlenF, hgetF, hallF⟩ := hInvF
      rw [h] at hlenF hgetF hallF
      exact ⟨hgetF, hallF, hlenF⟩

/-- Witness for C8 on three events with a trade only in the second window:
the calculator succeeds, exactly one of the two windows has a positive
count, and the single emitted record has `record_idx = 0`. -/
theorem c8_record_emission_indexing_witness :
    calculateFinalDataSet .BTC_USDT c8events c8trades 7 = .ok c8records ∧
    c8records.length =
      ((windowTradeCounts c8events c8trades).filter (fun c => decide (0 < c))).length ∧
    (c8records.getD 0 emptyRecord).record_idx = (0 : Int) :=
  ⟨by decide,
   (c8_record_emission_indexing .BTC_USDT c8events c8trades 7 c8records (by decide)).2.2,
   (c8_record_emission_indexing .BTC_USDT c8events c8trades 7 c8records (by decide)).1
     0 (by decide)⟩

/-- Snapshot-side processing succeeds on parseable entries. -/
theorem applySnapshotSide_isSome :
    ∀ (entries : List (List String)) (m : PriceMap),
      (∀ en ∈ entries, validEntry en = true) →
      ∃ m', applySnapshotSide entries m = some m' := by
  intro entries
  induction entries with
  | nil => intro m _; exact ⟨m, rfl⟩
  | cons e rest ih =>
    intro m hval
    have he := hval e (List.mem_cons_self e rest)
    have hrest : ∀ en ∈ rest, validEntry en = true :=
      fun en h => hval en (List.mem_cons_of_mem e h)
    match e, he with
    | [], _ => exact ih m hrest
    | [x], _ => exact ih m hrest
    | pS :: qS :: more, he =>
      simp only [validEntry, Bool.and_eq_true, Option.isSome_iff_exists] at he
      obtain ⟨⟨p, hp⟩, ⟨q, hq⟩⟩ := he
      simp only [applySnapshotSide, hp, hq, Option.bind_eq_bind, Option.some_bind]
      exact ih _ hrest

/-- Update-side processing succeeds on parseable entries. -/
theorem applyUpdateSide_isSome :
    ∀ (entries : List (List String)) (m : PriceMap),
      (∀ en ∈ entries, validEntry en = true) →
      ∃ m', applyUpdateSide entries m = some m' := by
  intro entries
  induction entries with
  | nil => intro m _; exact ⟨m, rfl⟩
  | cons e rest ih =>
    intro m hval
    have he := hval e (List.mem_cons_self e rest)
    have hrest : ∀ en ∈ rest, validEntry en = true :=
      fun en h => hval en (List.mem_cons_of_mem e h)
    match e, he with
    | [], _ => exact ih m hrest
    | [x], _ => exact ih m hrest
    | pS :: qS :: more, he =>
      simp only [validEntry, Bool.and_eq_true, Option.isSome_iff_exists] at he
      obtain ⟨⟨p, hp⟩, ⟨q, hq⟩⟩ := he
      simp only [applyUpdateSide, hp, hq, Option.bind_eq_bind, Option.some_bind]
      exact ih _ hrest

/-- Initialization succeeds on a parseable event, and sets the flag. -/
theorem initializeOrderBookState_isSome {e : OrderBookSnapshot}
    (hval : validEvent e = true) :
    ∃ st', initializeOrderBookState e = some st' ∧ st'.initialized = true := by
  simp only [validEvent, Bool.and_eq_true, List.all_eq_true] at hval
  obtain ⟨asks', ha⟩ := applySnapshotSide_isSome e.asks [] hval.1
  obtain ⟨bids', hb⟩ := applySnapshotSide_isSome e.bids [] hval.2
  refine ⟨{ ask_quantity_by_price := asks', bid_quantity_by_price := bids',
            initialized := true }, ?_, rfl⟩
  simp only [initializeOrderBookState, ha, hb, Option.bind_eq_bind, Option.some_bind]

/-- Book update succeeds on a parseable event and preserves the
`initialized` flag. -/
theorem updateOrderBookState_isSome {state : OrderBookState} {update : OrderBookSnapshot}
    (hval : validEvent update = true) :
    ∃ st', updateOrderBookState state update = some st' ∧
      st'.initialized = state.initialized := by
  simp only [validEvent, Bool.and_eq_true, List.all_eq_true] at hval
  obtain ⟨asks', ha⟩ := applyUpdateSide_isSome update.asks state.ask_quantity_by_price hval.1
  obtain ⟨bids', hb⟩ := applyUpdateSide_isSome update.bids state.bid_quantity_by_price hval.2
  refine ⟨{ state with ask_quantity_by_price := asks', bid_quantity_by_price := bids' },
          ?_, rfl⟩
  simp only [updateOrderBookState, ha, hb, Option.bind_eq_bind, Option.some_bind]

/-- The loop tail stores the updated book state unchanged. -/
theorem calcStepEmit_obState (sid : SymbolId) (dsIdx : Int) (trades : List TradeData)
    (st : CalcState) (A B : StartSideStats) (ob : OrderBookState)
    (cur next : OrderBookSnapshot) :
    (calcStepEmit sid dsIdx trades st A B ob cur next).obState = ob := by
  unfold calcStepEmit
  by_cases h : 0 < (calculateTradeStatistics trades cur.timestamp_ms next.timestamp_ms
      st.start_trade_idx).1.total_trades_count
  · rw [if_pos h]
  · rw [if_neg h]

/-- An `Except` value is an error exactly when it is not a success. -/
theorem except_error_iff_not_ok {ε α : Type} (x : Except ε α) :
    (∃ e, x = .error e) ↔ ¬∃ a, x = .ok a := by
  cases x <;> simp

/-- The two-constructor action enum: not-Update is exactly Snapshot. -/
theorem action_ne_update_iff (a : OKXOrderBookActionId) :
    a ≠ .Update ↔ a = .Snapshot := by
  cases a <;> simp

/-- The first components of a list zipped with its own tail enumerate all
its elements but the last. -/
theorem map_fst_zip_tail {α : Type} :
    ∀ l : List α, (l.zip l.tail).map Prod.fst = l.dropLast := by
  intro l
  induction l with
  | nil => rfl
  | cons a t ih =>
    cases t with
    | nil => rfl
    | cons b t' =>
      show ((a, b) :: ((b :: t').zip t')).map Prod.fst = (a :: b :: t').dropLast
      have ih' : ((b :: t').zip t').map Prod.fst = (b :: t').dropLast := ih
      rw [List.map_cons, ih']
      rfl

/-- Once the book is initialized, the remaining interval fold succeeds
exactly when every remaining checked event is tagged Update (given every
consumed update event parses). -/
theorem foldlM_post_init (sid : SymbolId) (dsIdx : Int) (trades : List TradeData) :
    ∀ (ps : List (OrderBookSnapshot × OrderBookSnapshot)) (st : CalcState),
      st.obState.initialized = true →
      (∀ p ∈ ps, validEvent p.2 = true) →
      ((∃ stF, ps.foldlM (fun s p => calcStep sid dsIdx trades s p.1 p.2) st = .ok stF) ↔
        ∀ p ∈ ps, p.1.action_id = .Update) := by
  intro ps
  induction ps with
  | nil =>
    intro st _ _
    constructor
    · intro _ p hp
      exact absurd hp (List.not_mem_nil p)
    · intro _
      exact ⟨st, rfl⟩
  | cons p rest ih =>
    intro st hinit hval
    have hvp := hval p (List.mem_cons_self p rest)
    have hvrest : ∀ x ∈ rest, validEvent x.2 = true :=
      fun x h => hval x (List.mem_cons_of_mem p h)
    by_cases hact : p.1.action_id = .Update
    · have hio : initOrCheck st p.1 = .ok st.obState := by
        unfold initOrCheck
        rw [if_neg (by simp [hinit]), if_neg (by simp [hact])]
      obtain ⟨ob', hup, hini'⟩ := @updateOrderBookState_isSome st.obState p.2 hvp
      have hstep : calcStep sid dsIdx trades st p.1 p.2 =
          .ok (calcStepEmit sid dsIdx trades st
            (if st.startAsks.total_volume.isZero then
              captureStartSide st.startAsks st.obState.ask_quantity_by_price
             else st.startAsks)
            (if st.startBids.total_volume.isZero then
              captureStartSide st.startBids st.obState.bid_quantity_by_price
             else st.startBids)
            ob' p.1 p.2) := by
        unfold calcStep
        rw [hio]
        simp only [Bind.bind, Except.bind, hup, ofParse, pure, Except.pure]
      have hinit1 : (calcStepEmit sid dsIdx trades st
          (if st.startAsks.total_volume.isZero then
            captureStartSide st.startAsks st.obState.ask_quantity_by_price
           else st.startAsks)
          (if st.startBids.total_volume.isZero then
            captureStartSide st.startBids st.obState.bid_quantity_by_price
           else st.startBids)
          ob' p.1 p.2).obState.initialized = true := by
        rw [calcStepEmit_obState, hini', hinit]
      rw [List.foldlM_cons, hstep]
      simp only [Bind.bind, Except.bind]
      rw [ih _ hinit1 hvrest]
      constructor
      · intro hall x hx
        rcases List.mem_cons.mp hx with hx1 | hx2
        · rw [hx1]; exact hact
        · exact hall x hx2
      · intro hall x hx
        exact hall x (List.mem_cons_of_mem p hx)
    · have hio : initOrCheck st p.1 = .error .updateExpected := by
        unfold initOrCheck
        rw [if_neg (by simp [hinit]), if_pos hact]
      have hstep : calcStep sid dsIdx trades st p.1 p.2 = .error .updateExpected := by
        unfold calcStep
        rw [hio]
        simp [Bind.bind, Except.bind]
      rw [List.foldlM_cons, hstep]
      simp only [Bind.bind, Except.bind]
      constructor
      · rintro ⟨stF, hstF⟩
        exact absurd hstF (by simp)
      · intro hall
        exact absurd (hall p (List.mem_cons_self p rest)) hact

/-- C4 (amended): for every event sequence of at least two events whose
price/quantity strings all parse, the calculator raises a validation error
(producing no record list) if and only if the first event is not tagged
Snapshot, or some event after the first — other than the last, whose action
tag is never checked — is tagged Snapshot. -/
theorem c4_snapshot_ordering_validation (sid : SymbolId) (dsIdx : Int)
    (trades : List TradeData) (e0 : OrderBookSnapshot) (rest : List OrderBookSnapshot)
    (hne : rest ≠ [])
    (hval : ∀ e ∈ e0 :: rest, validEvent e = true) :
    (∃ err, calculateFinalDataSet sid (e0 :: rest) trades dsIdx = .error err) ↔
      (e0.action_id ≠ .Snapshot ∨ ∃ e ∈ rest.dropLast, e.action_id = .Snapshot) := by
  obtain ⟨r1, rest', rfl⟩ : ∃ r1 rest', rest = r1 :: rest' := by
    cases rest with
    | nil => exact absurd rfl hne
    | cons a t => exact ⟨a, t, rfl⟩
  have hlen : ¬ (e0 :: r1 :: rest').length < 2 := by
    simp only [List.length_cons]
    omega
  unfold calculateFinalDataSet
  rw [if_neg hlen]
  have hzip : (e0 :: r1 :: rest').zip (e0 :: r1 :: rest').tail =
      (e0, r1) :: (r1 :: rest').zip rest' := rfl
  rw [hzip, List.foldlM_cons]
  by_cases hact0 : e0.action_id = .Snapshot
  · obtain ⟨ob0, hinit0, hini0⟩ :=
      initializeOrderBookState_isSome (hval e0 (List.mem_cons_self e0 _))
    have hio : initOrCheck ({} : CalcState) e0 = .ok ob0 := by
      unfold initOrCheck
      rw [if_pos rfl, if_neg (by simp [hact0]), hinit0]
      rfl
    obtain ⟨ob1, hup1, hini1⟩ := @updateOrderBookState_isSome ob0 r1
      (hval r1 (List.mem_cons_of_mem e0 (List.mem_cons_self r1 rest')))
    have hstep : calcStep sid dsIdx trades ({} : CalcState) e0 r1 =
        .ok (calcStepEmit sid dsIdx trades ({} : CalcState)
          (if ({} : CalcState).startAsks.total_volume.isZero then
            captureStartSide ({} : CalcState).startAsks ob0.ask_quantity_by_price
           else ({} : CalcState).startAsks)
          (if ({} : CalcState).startBids.total_volume.isZero then
            captureStartSide ({} : CalcState).startBids ob0.bid_quantity_by_price
           else ({} : CalcState).startBids)
          ob1 e0 r1) := by
      unfold calcStep
      rw [hio]
      simp only [Bind.bind, Except.bind, hup1, ofParse, pure, Except.pure]
    rw [hstep]
    simp only [Bind.bind, Except.bind]
    have hinit1 : (calcStepEmit sid dsIdx trades ({} : CalcState)
        (if ({} : CalcState).startAsks.total_volume.isZero then
          captureStartSide ({} : CalcState).startAsks ob0.ask_quantity_by_price
         else ({} : CalcState).startAsks)
        (if ({} : CalcState).startBids.total_volume.isZero then
          captureStartSide ({} : CalcState).startBids ob0.bid_quantity_by_price
         else ({} : CalcState).startBids)
        ob1 e0 r1).obState.initialized = true := by
      rw [calcStepEmit_obState, hini1, hini0]
    have hvps : ∀ p ∈ (r1 :: rest').zip rest', validEvent p.2 = true := by
      intro p hp
      have hmem := (List.of_mem_zip hp).2
      exact hval p.2 (List.mem_cons_of_mem e0 (List.mem_cons_of_mem r1 hmem))
    have hiff := foldlM_post_init sid dsIdx trades ((r1 :: rest').zip rest') _ hinit1 hvps
    cases hF : ((r1 :: rest').zip rest').foldlM
        (fun s p => calcStep sid dsIdx trades s p.1 p.2)
        (calcStepEmit sid dsIdx trades ({} : CalcState)
          (if ({} : CalcState).startAsks.total_volume.isZero then
            captureStartSide ({} : CalcState).startAsks ob0.ask_quantity_by_price
           else ({} : CalcState).startAsks)
          (if ({} : CalcState).startBids.total_volume.isZero then
            captureStartSide ({} : CalcState).startBids ob0.bid_quantity_by_price
           else ({} : CalcState).startBids)
          ob1 e0 r1) with
    | error e =>
      rw [hF] at hiff
      simp only [Bind.bind, Except.bind]
      have hnotall : ¬ ∀ p ∈ (r1 :: rest').zip rest', p.1.action_id = .Update := by
        intro hall
        obtain ⟨stF, hstF⟩ := hiff.mpr hall
        exact absurd hstF (by simp)
      constructor
      · intro _
        right
        push_neg at hnotall
        obtain ⟨p, hpmem, hpact⟩ := hnotall
        refine ⟨p.1, ?_, (action_ne_update_iff p.1.action_id).mp hpact⟩
        have hmem1 : p.1 ∈ ((r1 :: rest').zip rest').map Prod.fst :=
          List.mem_map_of_mem Prod.fst hpmem
        have hmap : ((r1 :: rest').zip rest').map Prod.fst = (r1 :: rest').dropLast :=
          map_fst_zip_tail (r1 :: rest')
        rwa [hmap] at hmem1
      · intro _
        exact ⟨e, rfl⟩
    | ok stF =>
      rw [hF] at hiff
      have hall : ∀ p ∈ (r1 :: rest').zip rest', p.1.action_id = .Update :=
        hiff.mp ⟨stF, rfl⟩
      constructor
      · rintro ⟨err, herr⟩
        exact absurd herr (by simp [pure, Except.pure])
      · intro hrhs
        rcases hrhs with hl | ⟨e, hemem, heact⟩
        · exact absurd hact0 hl
        · have hmap : ((r1 :: rest').zip rest').map Prod.fst = (r1 :: rest').dropLast :=
            map_fst_zip_tail (r1 :: rest')
          have hemem' : e ∈ ((r1 :: rest').zip rest').map Prod.fst := by
            rwa [hmap]
          rcases List.mem_map.mp hemem' with ⟨p, hpmem, hpe⟩
          have := hall p hpmem
          rw [hpe, heact] at this
          exact absurd this (by simp)
  · have hio : initOrCheck ({} : CalcState) e0 = .error .firstNotSnapshot := by
      unfold initOrCheck
      rw [if_pos rfl, if_pos hact0]
    have hstep : calcStep sid dsIdx trades ({} : CalcState) e0 r1 =
        .error .firstNotSnapshot := by
      unfold calcStep
      rw [hio]
      simp [Bind.bind, Except.bind]
    rw [hstep]
    simp only [Bind.bind, Except.bind]
    constructor
    · intro _
      exact Or.inl hact0
    · intro _
      exact ⟨.firstNotSnapshot, rfl⟩

/-- Witness for C4's amended validation rule on the minimal valid sequence
`[Snapshot, Update]`: the call does not fail, matching the right-hand side
being false. -/
theorem c4_snapshot_ordering_validation_witness :
    (([⟨.BTC_USDT, 2000, .Update, [], []⟩] : List OrderBookSnapshot) ≠ [] ∧
     (∀ e ∈ c4snapA :: [(⟨.BTC_USDT, 2000, .Update, [], []⟩ : OrderBookSnapshot)],
        validEvent e = true)) ∧
    ((∃ err, calculateFinalDataSet .BTC_USDT
        (c4snapA :: [⟨.BTC_USDT, 2000, .Update, [], []⟩]) [] 0 = .error err) ↔
      (c4snapA.action_id ≠ .Snapshot ∨
       ∃ e ∈ ([(⟨.BTC_USDT, 2000, .Update, [], []⟩ : OrderBookSnapshot)] : List _).dropLast,
         e.action_id = .Snapshot)) :=
  ⟨⟨by decide, by decide⟩,
   c4_snapshot_ordering_validation .BTC_USDT 0 [] c4snapA
     [⟨.BTC_USDT, 2000, .Update, [], []⟩] (by decide) (by decide)⟩

end claims

end okx
